import Mathlib

/-!
Verification of the `mcp_attack` scanning core (repository `babywyrm/agentsmith`).

This file gives a shallow embedding of the Python modules
`mcp_attack/core/models.py`, `mcp_attack/core/constants.py`,
`mcp_attack/core/enumerator.py`, `mcp_attack/diff.py`, `mcp_attack/scanner.py`,
`mcp_attack/checks/{base,behavioral,chaining,permissions}.py` and the
differential fragment of `mcp_attack/__main__.py`, together with theorems
settling the specified behavioural properties.

Modelling conventions:
- Python dicts used as ordered maps become association lists
  (`List (String × _)`) with insertion-order semantics (`dictInsert`,
  `dictAppend`); dict comprehensions become `buildMap`.
- Arbitrary JSON values become the inductive `Json`; `json.dumps(_, sort_keys)`
  becomes `Json.dumpsSorted`, which sorts object keys at every level.
- Tool / resource / prompt maps are modelled by records with the optional
  fields the code reads (`name`, `description`, `inputSchema`, `uri`);
  per the data model these payloads are opaque maps whose other keys are
  never consumed by the embedded code.
- Python exceptions (`KeyError` for `d[k]` on a missing key,
  `AttributeError` for `.get` on a non-dict) become `Except String`.
- Wall-clock durations are abstracted by an explicit `Nat` parameter; only
  the presence and multiplicity of timing entries is ever asserted.
-/

/-! ## Association lists with Python `dict` semantics -/

/-- Lookup in an association list (first match wins, as in a Python dict,
whose keys are unique). -/
def assocLookup (m : List (String × α)) (k : String) : Option α :=
  match m with
  | [] => none
  | (k₁, v) :: rest => if k₁ = k then some v else assocLookup rest k

/-- Python `d[k] = v`: update in place if the key exists (keeping its
position), otherwise append at the end, preserving insertion order. -/
def dictInsert (m : List (String × α)) (k : String) (v : α) : List (String × α) :=
  if (assocLookup m k).isSome then
    m.map (fun p => (p.1, if p.1 = k then v else p.2))
  else
    m ++ [(k, v)]

/-- Python `defaultdict(list)`: `d[k].append(v)`. -/
def dictAppend (m : List (String × List β)) (k : String) (v : β) : List (String × List β) :=
  if (assocLookup m k).isSome then
    m.map (fun p => (p.1, if p.1 = k then p.2 ++ [v] else p.2))
  else
    m ++ [(k, [v])]

/-- Python dict comprehension `{key x: x for x in xs}`. -/
def buildMap (key : α → String) (xs : List α) : List (String × α) :=
  xs.foldl (fun m x => dictInsert m (key x) x) []

/-- The keys of an association list are pairwise distinct (always true of a
map built from a Python dict). -/
def keysNodup (m : List (String × α)) : Prop :=
  (m.map Prod.fst).Nodup

instance (m : List (String × α)) : Decidable (keysNodup m) := by
  unfold keysNodup; infer_instance

theorem assocLookup_eq_none_iff (m : List (String × α)) (k : String) :
    assocLookup m k = none ↔ ∀ p ∈ m, p.1 ≠ k := by
  induction m with
  | nil => simp [assocLookup]
  | cons p rest ih =>
    obtain ⟨k₁, v⟩ := p
    by_cases h : k₁ = k
    · subst h; simp [assocLookup]
    · simp [assocLookup, h, ih]

theorem assocLookup_append (m m' : List (String × α)) (k : String) :
    assocLookup (m ++ m') k =
      (assocLookup m k).orElse (fun _ => assocLookup m' k) := by
  induction m with
  | nil => simp [assocLookup]
  | cons p rest ih =>
    by_cases h : p.1 = k
    · simp [assocLookup, h]
    · simp [assocLookup, h, ih]

theorem assocLookup_mapUpdate (m : List (String × α)) (k k' : String) (v : α) :
    assocLookup (m.map (fun p => (p.1, if p.1 = k then v else p.2))) k' =
      if k = k' then (assocLookup m k).map (fun _ => v) else assocLookup m k' := by
  induction m with
  | nil => simp [assocLookup]
  | cons p rest ih =>
    obtain ⟨k₁, w⟩ := p
    by_cases h2 : k₁ = k'
    · subst h2
      by_cases h1 : k₁ = k
      · subst h1; simp [assocLookup]
      · have hkk : ¬ (k = k₁) := fun h => h1 h.symm
        simp [assocLookup, h1, hkk]
    · by_cases h1 : k₁ = k
      · subst h1
        simp [assocLookup, h2, ih]
      · simp [assocLookup, h1, h2, ih]

theorem assocLookup_dictInsert (m : List (String × α)) (k k' : String) (v : α) :
    assocLookup (dictInsert m k v) k' =
      if k = k' then some v else assocLookup m k' := by
  unfold dictInsert
  by_cases hmem : (assocLookup m k).isSome
  · simp only [hmem, if_true, assocLookup_mapUpdate]
    by_cases h : k = k'
    · subst h
      obtain ⟨w, hw⟩ := Option.isSome_iff_exists.mp hmem
      simp [hw]
    · simp [h]
  · rw [if_neg hmem, assocLookup_append]
    by_cases h : k = k'
    · subst h
      rw [Option.not_isSome_iff_eq_none] at hmem
      simp [hmem, assocLookup]
    · cases hm : assocLookup m k' with
      | some w => simp [hm, h]
      | none => simp [hm, assocLookup, h]

theorem keys_dictInsert_of_mem (m : List (String × α)) (k : String) (v : α)
    (h : (assocLookup m k).isSome) :
    (dictInsert m k v).map Prod.fst = m.map Prod.fst := by
  unfold dictInsert
  simp [h, List.map_map, Function.comp]

theorem keysNodup_dictInsert (m : List (String × α)) (k : String) (v : α)
    (h : keysNodup m) : keysNodup (dictInsert m k v) := by
  by_cases hmem : (assocLookup m k).isSome
  · unfold keysNodup
    rw [keys_dictInsert_of_mem m k v hmem]
    exact h
  · unfold keysNodup dictInsert
    rw [if_neg hmem]
    rw [Option.not_isSome_iff_eq_none, assocLookup_eq_none_iff] at hmem
    simp only [List.map_append, List.map_cons, List.map_nil]
    rw [List.nodup_append]
    refine ⟨h, List.nodup_singleton k, ?_⟩
    intro a ha hb
    simp only [List.mem_singleton] at hb
    subst hb
    simp only [List.mem_map] at ha
    obtain ⟨p, hp, hpk⟩ := ha
    exact hmem p hp hpk

theorem assocLookup_of_mem (m : List (String × α)) (p : String × α)
    (hnodup : keysNodup m) (hmem : p ∈ m) : assocLookup m p.1 = some p.2 := by
  induction m with
  | nil => simp at hmem
  | cons q rest ih =>
    unfold keysNodup at hnodup
    simp only [List.map_cons, List.nodup_cons] at hnodup
    obtain ⟨hq, hrest⟩ := hnodup
    rcases List.mem_cons.mp hmem with h | h
    · subst h; simp [assocLookup]
    · have hne : q.1 ≠ p.1 := by
        intro hc
        exact hq (hc ▸ List.mem_map_of_mem Prod.fst h)
      simp [assocLookup, hne]
      exact ih hrest h

theorem keysNodup_buildMap_aux (key : α → String) (xs : List α)
    (m : List (String × α)) (h : keysNodup m) :
    keysNodup (xs.foldl (fun m x => dictInsert m (key x) x) m) := by
  induction xs generalizing m with
  | nil => exact h
  | cons x rest ih =>
    exact ih _ (keysNodup_dictInsert m (key x) x h)

theorem keysNodup_buildMap (key : α → String) (xs : List α) :
    keysNodup (buildMap key xs) :=
  keysNodup_buildMap_aux key xs [] (by simp [keysNodup])

theorem buildMap_aux_of_fresh (key : α → String) (xs : List α)
    (acc : List (String × α))
    (hfresh : ∀ x ∈ xs, assocLookup acc (key x) = none)
    (hnodup : (xs.map key).Nodup) :
    xs.foldl (fun m x => dictInsert m (key x) x) acc =
      acc ++ xs.map (fun x => (key x, x)) := by
  induction xs generalizing acc with
  | nil => simp
  | cons x rest ih =>
    simp only [List.map_cons, List.nodup_cons] at hnodup
    obtain ⟨hx, hrest⟩ := hnodup
    have hstep : dictInsert acc (key x) x = acc ++ [(key x, x)] := by
      unfold dictInsert
      rw [if_neg]
      simp [hfresh x (List.mem_cons_self x rest)]
    simp only [List.foldl_cons, hstep]
    rw [ih (acc ++ [(key x, x)])]
    · simp
    · intro y hy
      rw [assocLookup_append, hfresh y (List.mem_cons_of_mem x hy)]
      have hne : key x ≠ key y := by
        intro hc
        exact hx (hc ▸ List.mem_map_of_mem key hy)
      simp [assocLookup, hne]
    · exact hrest

theorem buildMap_of_nodup_keys (key : α → String) (xs : List α)
    (hnodup : (xs.map key).Nodup) :
    buildMap key xs = xs.map (fun x => (key x, x)) := by
  unfold buildMap
  rw [buildMap_aux_of_fresh key xs [] (fun _ _ => rfl) hnodup]
  simp

theorem assocLookup_buildMap_aux_isSome (key : α → String) (xs : List α)
    (acc : List (String × α)) (n : String) :
    (assocLookup (xs.foldl (fun m x => dictInsert m (key x) x) acc) n).isSome =
      ((assocLookup acc n).isSome || xs.any (fun x => key x = n)) := by
  induction xs generalizing acc with
  | nil => simp
  | cons x rest ih =>
    simp only [List.foldl_cons, List.any_cons]
    rw [ih]
    rw [assocLookup_dictInsert]
    by_cases h : key x = n
    · simp [h]
    · simp [h]

theorem assocLookup_buildMap_isSome (key : α → String) (xs : List α) (n : String) :
    (assocLookup (buildMap key xs) n).isSome = xs.any (fun x => key x = n) := by
  unfold buildMap
  rw [assocLookup_buildMap_aux_isSome]
  simp [assocLookup]

theorem assocLookup_buildMap_eq_none_iff (key : α → String) (xs : List α)
    (n : String) :
    assocLookup (buildMap key xs) n = none ↔ ∀ x ∈ xs, key x ≠ n := by
  rw [← Option.not_isSome_iff_eq_none, assocLookup_buildMap_isSome]
  simp

/-! ## JSON values and Python serialisations -/

/-- JSON values as produced by `json.loads` (numbers restricted to
integers, which is all the embedded code ever compares). -/
inductive Json where
  | null : Json
  | bool (b : Bool) : Json
  | num (n : Int) : Json
  | str (s : String) : Json
  | arr (elems : List Json) : Json
  | obj (entries : List (String × Json)) : Json
deriving Repr

/-- A single quote character (Python quoting for `repr`/f-strings). -/
def sglq : String := (Char.ofNat 39).toString

/-- Wrap a string in single quotes, as Python `repr` displays strings. -/
def pyq (s : String) : String := sglq ++ s ++ sglq

/-- Python `repr` of a list of strings, e.g. `f"{servers}"`. -/
def pyListRepr (xs : List String) : String :=
  "[" ++ String.intercalate ", " (xs.map pyq) ++ "]"

/-- Insert into an ascending list of strings (code-point order, as Python
`sorted`). -/
def strInsertSorted (s : String) : List String → List String
  | [] => [s]
  | x :: xs => if s < x then s :: x :: xs else x :: strInsertSorted s xs

/-- Python `sorted` on strings. -/
def sortStrings (xs : List String) : List String :=
  xs.foldr strInsertSorted []

def jsonEscapeChar (c : Char) : String :=
  if c = Char.ofNat 92 then "\\\\"
  else if c = Char.ofNat 34 then "\\\""
  else c.toString

/-- JSON string literal as emitted by `json.dumps` (escaping restricted to
the backslash and the double quote, which keeps the encoding injective). -/
def jsonQuote (s : String) : String :=
  "\"" ++ String.join (s.toList.map jsonEscapeChar) ++ "\""

def insertPairSorted (p : String × String) :
    List (String × String) → List (String × String)
  | [] => [p]
  | q :: qs => if p.1 < q.1 then p :: q :: qs else q :: insertPairSorted p qs

def sortPairsByKey (ps : List (String × String)) : List (String × String) :=
  ps.foldr insertPairSorted []

mutual

/-- Python `json.dumps(j, sort_keys=True)`: object keys are sorted at every
nesting level, so the output is an order-independent canonical form. -/
def Json.dumpsSorted : Json → String
  | .null => "null"
  | .bool true => "true"
  | .bool false => "false"
  | .num n => toString n
  | .str s => jsonQuote s
  | .arr elems => "[" ++ String.intercalate ", " (Json.dumpsSortedList elems) ++ "]"
  | .obj entries =>
      "\x7b" ++
        String.intercalate ", "
          ((sortPairsByKey (Json.dumpsSortedEntries entries)).map
            (fun p => jsonQuote p.1 ++ ": " ++ p.2)) ++
      "\x7d"

def Json.dumpsSortedList : List Json → List String
  | [] => []
  | j :: js => Json.dumpsSorted j :: Json.dumpsSortedList js

def Json.dumpsSortedEntries : List (String × Json) → List (String × String)
  | [] => []
  | (k, j) :: rest => (k, Json.dumpsSorted j) :: Json.dumpsSortedEntries rest

end

def indentStr (n : Nat) : String :=
  String.join (List.replicate n "  ")

mutual

/-- Python `json.dumps(j, indent=2)` (insertion key order, item separator
`,` with a newline, key separator `: `). -/
def Json.dumpsIndent (lvl : Nat) : Json → String
  | .null => "null"
  | .bool true => "true"
  | .bool false => "false"
  | .num n => toString n
  | .str s => jsonQuote s
  | .arr [] => "[]"
  | .arr elems =>
      "[\n" ++
        String.intercalate ",\n"
          ((Json.dumpsIndentList (lvl + 1) elems).map
            (fun s => indentStr (lvl + 1) ++ s)) ++
      "\n" ++ indentStr lvl ++ "]"
  | .obj [] => "\x7b\x7d"
  | .obj entries =>
      "\x7b\n" ++
        String.intercalate ",\n"
          ((Json.dumpsIndentEntries (lvl + 1) entries).map
            (fun p => indentStr (lvl + 1) ++ jsonQuote p.1 ++ ": " ++ p.2)) ++
      "\n" ++ indentStr lvl ++ "\x7d"

def Json.dumpsIndentList (lvl : Nat) : List Json → List String
  | [] => []
  | j :: js => Json.dumpsIndent lvl j :: Json.dumpsIndentList lvl js

def Json.dumpsIndentEntries (lvl : Nat) :
    List (String × Json) → List (String × String)
  | [] => []
  | (k, j) :: rest => (k, Json.dumpsIndent lvl j) :: Json.dumpsIndentEntries lvl rest

end

mutual

/-- Python `repr` of a parsed-JSON value (used by f-string interpolation of
non-string values; string escaping elided, display only). -/
def Json.pyRepr : Json → String
  | .null => "None"
  | .bool true => "True"
  | .bool false => "False"
  | .num n => toString n
  | .str s => pyq s
  | .arr elems => "[" ++ String.intercalate ", " (Json.pyReprList elems) ++ "]"
  | .obj entries =>
      "\x7b" ++
        String.intercalate ", "
          ((Json.pyReprEntries entries).map (fun p => pyq p.1 ++ ": " ++ p.2)) ++
      "\x7d"

def Json.pyReprList : List Json → List String
  | [] => []
  | j :: js => Json.pyRepr j :: Json.pyReprList js

def Json.pyReprEntries : List (String × Json) → List (String × String)
  | [] => []
  | (k, j) :: rest => (k, Json.pyRepr j) :: Json.pyReprEntries rest

end

/-- Python `str` of a parsed-JSON value, as an f-string formats it. -/
def Json.pyStr : Json → String
  | .str s => s
  | j => j.pyRepr

/-! ## Data model (`mcp_attack/core/models.py`, `core/constants.py`) -/

/-- `Finding` dataclass: immutable once created. -/
structure Finding where
  target : String
  check : String
  severity : String
  title : String
  detail : String
  evidence : String
deriving Repr, DecidableEq

/-- A tool map as returned by a target: an opaque dict of which the scanner
reads the optional keys `name`, `description` and `inputSchema`. -/
structure Tool where
  name : Option String
  description : Option String
  inputSchema : Option Json
deriving Repr

/-- A resource map: the scanner reads the optional keys `uri` and `name`. -/
structure Resource where
  uri : Option String
  name : Option String
deriving Repr, DecidableEq

/-- A prompt map: the scanner reads the optional key `name`. -/
structure Prompt where
  name : Option String
deriving Repr, DecidableEq

/-- `TargetResult` dataclass (timings hold abstracted durations). -/
structure TargetResult where
  url : String
  transport : String
  server_info : Json
  tools : List Tool
  resources : List Resource
  prompts : List Prompt
  findings : List Finding
  timings : List (String × Nat)
  error : String
deriving Repr

/-- `TargetResult(url=url)`: every other field takes its dataclass default. -/
def TargetResult.fresh (url : String) : TargetResult :=
  ⟨url, "unknown", Json.obj [], [], [], [], [], [], ""⟩

/-- `TargetResult.add`: build a `Finding` for this url and append it. -/
def TargetResult.add (r : TargetResult) (check severity title detail evidence : String) :
    TargetResult :=
  { r with findings := r.findings ++ [⟨r.url, check, severity, title, detail, evidence⟩] }

/-- `SEVERITY_WEIGHTS` from `core/constants.py`. -/
def SEVERITY_WEIGHTS : List (String × Nat) :=
  [("CRITICAL", 10), ("HIGH", 7), ("MEDIUM", 4), ("LOW", 1)]

/-- `TargetResult.risk_score`: sum of `SEVERITY_WEIGHTS.get(f.severity, 0)`
over the findings. -/
def TargetResult.risk_score (r : TargetResult) : Nat :=
  (r.findings.map (fun f => (assocLookup SEVERITY_WEIGHTS f.severity).getD 0)).sum

/-- Weight function written independently from the specification text:
CRITICAL 10, HIGH 7, MEDIUM 4, LOW 1, anything else 0. -/
def severityWeightSpec (sev : String) : Nat :=
  if sev = "CRITICAL" then 10
  else if sev = "HIGH" then 7
  else if sev = "MEDIUM" then 4
  else if sev = "LOW" then 1
  else 0

theorem severityWeight_agrees (sev : String) :
    (assocLookup SEVERITY_WEIGHTS sev).getD 0 = severityWeightSpec sev := by
  by_cases h1 : "CRITICAL" = sev
  · subst h1; decide
  by_cases h2 : "HIGH" = sev
  · subst h2; decide
  by_cases h3 : "MEDIUM" = sev
  · subst h3; decide
  by_cases h4 : "LOW" = sev
  · subst h4; decide
  have g1 : ¬ sev = "CRITICAL" := fun h => h1 h.symm
  have g2 : ¬ sev = "HIGH" := fun h => h2 h.symm
  have g3 : ¬ sev = "MEDIUM" := fun h => h3 h.symm
  have g4 : ¬ sev = "LOW" := fun h => h4 h.symm
  simp [SEVERITY_WEIGHTS, severityWeightSpec, assocLookup, h1, h2, h3, h4, g1, g2, g3, g4]

/-- Concrete result whose findings have severities CRITICAL, HIGH, LOW. -/
def riskExampleCHL : TargetResult :=
  ⟨"http://t", "HTTP", Json.obj [], [], [], [],
    [⟨"http://t", "a", "CRITICAL", "t1", "", ""⟩,
     ⟨"http://t", "b", "HIGH", "t2", "", ""⟩,
     ⟨"http://t", "c", "LOW", "t3", "", ""⟩], [], ""⟩

/-- Concrete result with no findings. -/
def riskExampleEmpty : TargetResult :=
  ⟨"http://t", "HTTP", Json.obj [], [], [], [], [], [], ""⟩

/-- Claim C3: for every TargetResult, risk_score is the sum over its
findings of the weights CRITICAL=10, HIGH=7, MEDIUM=4, LOW=1 (anything else
0); a result with findings [CRITICAL, HIGH, LOW] scores 18 and a result
with no findings scores 0. -/
theorem risk_score_weighted_sum :
    (∀ r : TargetResult,
      r.risk_score = (r.findings.map (fun f => severityWeightSpec f.severity)).sum)
    ∧ riskExampleCHL.risk_score = 18
    ∧ riskExampleEmpty.risk_score = 0 := by
  refine ⟨?_, by decide, by decide⟩
  intro r
  unfold TargetResult.risk_score
  congr 1
  exact List.map_congr_left (fun f _ => severityWeight_agrees f.severity)

/-! ## Differential baseline engine (`mcp_attack/diff.py`) -/

/-- `_tool_key`: `t.get("name", "")`. -/
def toolKey (t : Tool) : String := t.name.getD ""

/-- `_resource_key`: `r.get("uri", r.get("name", ""))`. -/
def resourceKey (r : Resource) : String :=
  match r.uri with
  | some u => u
  | none => r.name.getD ""

/-- `_prompt_key`: `p.get("name", "")`. -/
def promptKey (p : Prompt) : String := p.name.getD ""

/-- `_tools_equal`: compare `name` (no default), `description` (default `""`)
and the `sort_keys=True` JSON dump of `inputSchema` (default `{}`). -/
def toolsEqual (a b : Tool) : Bool :=
  decide (a.name = b.name) &&
  decide (a.description.getD "" = b.description.getD "") &&
  decide (Json.dumpsSorted (a.inputSchema.getD (Json.obj [])) =
    Json.dumpsSorted (b.inputSchema.getD (Json.obj [])))

/-- `DiffResult` dataclass. -/
structure DiffResult where
  url : String
  added_tools : List Tool
  removed_tools : List Tool
  modified_tools : List (Tool × Tool)
  added_resources : List Resource
  removed_resources : List Resource
  added_prompts : List Prompt
  removed_prompts : List Prompt
deriving Repr

/-- `DiffResult.has_changes`. -/
def DiffResult.has_changes (d : DiffResult) : Bool :=
  !d.added_tools.isEmpty || !d.removed_tools.isEmpty ||
  !d.modified_tools.isEmpty || !d.added_resources.isEmpty ||
  !d.removed_resources.isEmpty || !d.added_prompts.isEmpty ||
  !d.removed_prompts.isEmpty

/-- Keys in the current map that are absent from the baseline map
(the `if name not in base_tool_map` branch). -/
def addedOf (curr base : List (String × α)) : List α :=
  curr.filterMap (fun p => if (assocLookup base p.1).isSome then none else some p.2)

/-- Keys in the baseline map that are absent from the current map. -/
def removedOf (curr base : List (String × α)) : List α :=
  base.filterMap (fun p => if (assocLookup curr p.1).isSome then none else some p.2)

/-- Keys present in both maps whose values compare unequal
(the `elif not _tools_equal(...)` branch); pairs are (baseline, current). -/
def modifiedOf (eqFn : α → α → Bool) (curr base : List (String × α)) :
    List (α × α) :=
  curr.filterMap (fun p =>
    match assocLookup base p.1 with
    | none => none
    | some b => if eqFn p.2 b then none else some (b, p.2))

/-- `diff_against_baseline`: key tools by name, resources by uri (falling
back to name), prompts by name; tools present in both keyed maps but
unequal under `_tools_equal` are modified; resources and prompts get only
added/removed treatment. -/
def diff_against_baseline (current_tools : List Tool)
    (current_resources : List Resource) (current_prompts : List Prompt)
    (baseline_tools : List Tool) (baseline_resources : List Resource)
    (baseline_prompts : List Prompt) (url : String) : DiffResult :=
  let base_tool_map := buildMap toolKey baseline_tools
  let curr_tool_map := buildMap toolKey current_tools
  let base_res_map := buildMap resourceKey baseline_resources
  let curr_res_map := buildMap resourceKey current_resources
  let base_prompt_map := buildMap promptKey baseline_prompts
  let curr_prompt_map := buildMap promptKey current_prompts
  { url := url
    added_tools := addedOf curr_tool_map base_tool_map
    removed_tools := removedOf curr_tool_map base_tool_map
    modified_tools := modifiedOf toolsEqual curr_tool_map base_tool_map
    added_resources := addedOf curr_res_map base_res_map
    removed_resources := removedOf curr_res_map base_res_map
    added_prompts := addedOf curr_prompt_map base_prompt_map
    removed_prompts := removedOf curr_prompt_map base_prompt_map }

theorem toolsEqual_refl (t : Tool) : toolsEqual t t = true := by
  simp [toolsEqual]

theorem addedOf_self (m : List (String × α)) (h : keysNodup m) :
    addedOf m m = [] := by
  apply List.filterMap_eq_nil_iff.mpr
  intro p hp
  simp [assocLookup_of_mem m p h hp]

theorem removedOf_self (m : List (String × α)) (h : keysNodup m) :
    removedOf m m = [] := by
  apply List.filterMap_eq_nil_iff.mpr
  intro p hp
  simp [assocLookup_of_mem m p h hp]

theorem modifiedOf_self (eqFn : α → α → Bool) (m : List (String × α))
    (h : keysNodup m) (hrefl : ∀ x, eqFn x x = true) :
    modifiedOf eqFn m m = [] := by
  apply List.filterMap_eq_nil_iff.mpr
  intro p hp
  simp [assocLookup_of_mem m p h hp, hrefl]

/-- Claim C6: diffing identical tool/resource/prompt lists against
themselves yields a DiffResult with `has_changes() == false` (every
added/removed/modified list empty). -/
theorem diff_identical_no_changes (tools : List Tool) (res : List Resource)
    (prompts : List Prompt) (url : String) :
    (diff_against_baseline tools res prompts tools res prompts url).has_changes
      = false := by
  unfold diff_against_baseline DiffResult.has_changes
  simp only
  rw [addedOf_self _ (keysNodup_buildMap toolKey tools),
    removedOf_self _ (keysNodup_buildMap toolKey tools),
    modifiedOf_self toolsEqual _ (keysNodup_buildMap toolKey tools) toolsEqual_refl,
    addedOf_self _ (keysNodup_buildMap resourceKey res),
    removedOf_self _ (keysNodup_buildMap resourceKey res),
    addedOf_self _ (keysNodup_buildMap promptKey prompts),
    removedOf_self _ (keysNodup_buildMap promptKey prompts)]
  rfl

theorem modified_entries_none (xs : List Tool) (bm : List (String × Tool))
    (t : Tool) (hnone : ∀ x ∈ xs, toolKey x ≠ toolKey t) :
    List.filter (fun p => decide (toolKey p.2 = toolKey t))
      (modifiedOf toolsEqual (xs.map (fun x => (toolKey x, x))) bm) = [] := by
  induction xs with
  | nil => simp [modifiedOf]
  | cons x rest ih =>
    have hx : toolKey x ≠ toolKey t := hnone x (List.mem_cons_self x rest)
    have hr : ∀ y ∈ rest, toolKey y ≠ toolKey t :=
      fun y hy => hnone y (List.mem_cons_of_mem x hy)
    unfold modifiedOf at ih ⊢
    simp only [List.map_cons, List.filterMap_cons]
    cases hbx : assocLookup bm (toolKey x) with
    | none =>
      simp only [hbx]
      exact ih hr
    | some bb =>
      simp only [hbx]
      by_cases he : toolsEqual x bb = true
      · simp only [he, if_true]
        exact ih hr
      · simp only [Bool.not_eq_true] at he
        simp only [he, Bool.false_eq_true, if_false]
        rw [List.filter_cons_of_neg (by simpa using hx)]
        exact ih hr

theorem modified_entries_for_key (xs : List Tool) (bm : List (String × Tool))
    (t b : Tool) (hnd : (xs.map toolKey).Nodup) (ht : t ∈ xs)
    (hgt : assocLookup bm (toolKey t) = some b) (hne : toolsEqual t b = false) :
    List.filter (fun p => decide (toolKey p.2 = toolKey t))
      (modifiedOf toolsEqual (xs.map (fun x => (toolKey x, x))) bm) = [(b, t)] := by
  induction xs with
  | nil => simp at ht
  | cons x rest ih =>
    simp only [List.map_cons, List.nodup_cons] at hnd
    obtain ⟨hx, hrest⟩ := hnd
    unfold modifiedOf at ih ⊢
    simp only [List.map_cons, List.filterMap_cons]
    rcases List.mem_cons.mp ht with heq | hmem
    · subst heq
      simp only [hgt, hne, Bool.false_eq_true, if_false]
      rw [List.filter_cons_of_pos (by simp)]
      have hrec := modified_entries_none rest bm t
        (fun y hy hc => hx (hc ▸ List.mem_map_of_mem toolKey hy))
      unfold modifiedOf at hrec
      rw [hrec]
    · have hxt : toolKey x ≠ toolKey t :=
        fun hc => hx (hc ▸ List.mem_map_of_mem toolKey hmem)
      cases hbx : assocLookup bm (toolKey x) with
      | none =>
        simp only [hbx]
        exact ih hrest hmem
      | some bb =>
        simp only [hbx]
        by_cases he : toolsEqual x bb = true
        · simp only [he, if_true]
          exact ih hrest hmem
        · simp only [Bool.not_eq_true] at he
          simp only [he, Bool.false_eq_true, if_false]
          rw [List.filter_cons_of_neg (by simpa using hxt)]
          exact ih hrest hmem

/-- Claim C5: a tool whose key is present in both the baseline and the
current set but which differs in name, description, or canonical JSON form
of its input schema appears exactly once in modified_tools (as the
baseline/current pair) and never in added_tools or removed_tools. -/
theorem modified_not_added_removed
    (current baseline : List Tool) (cres bres : List Resource)
    (cps bps : List Prompt) (url : String) (t b : Tool)
    (hc : (current.map toolKey).Nodup) (hb : (baseline.map toolKey).Nodup)
    (ht : t ∈ current) (hbm : b ∈ baseline)
    (hk : toolKey t = toolKey b) (hne : toolsEqual t b = false) :
    ((diff_against_baseline current cres cps baseline bres bps url).modified_tools.filter
        (fun p => decide (toolKey p.2 = toolKey t)) = [(b, t)])
    ∧ (∀ x ∈ (diff_against_baseline current cres cps baseline bres bps url).added_tools,
        toolKey x ≠ toolKey t)
    ∧ (∀ x ∈ (diff_against_baseline current cres cps baseline bres bps url).removed_tools,
        toolKey x ≠ toolKey t) := by
  have hbnodup : keysNodup (baseline.map (fun x => (toolKey x, x))) := by
    unfold keysNodup
    simpa [List.map_map, Function.comp] using hb
  have hbm' : assocLookup (buildMap toolKey baseline) (toolKey t) = some b := by
    rw [hk, buildMap_of_nodup_keys toolKey baseline hb]
    exact assocLookup_of_mem _ (toolKey b, b) hbnodup
      (List.mem_map_of_mem (fun x => (toolKey x, x)) hbm)
  have hcm : assocLookup (buildMap toolKey current) (toolKey t) ≠ none := by
    rw [← Option.isSome_iff_ne_none, assocLookup_buildMap_isSome]
    exact List.any_eq_true.mpr ⟨t, ht, by simp⟩
  refine ⟨?_, ?_, ?_⟩
  · show (modifiedOf toolsEqual (buildMap toolKey current) (buildMap toolKey baseline)).filter
      (fun p => decide (toolKey p.2 = toolKey t)) = [(b, t)]
    rw [buildMap_of_nodup_keys toolKey current hc]
    exact modified_entries_for_key current _ t b hc ht hbm' hne
  · intro x hx
    have hx' : x ∈ addedOf (buildMap toolKey current) (buildMap toolKey baseline) := hx
    unfold addedOf at hx'
    obtain ⟨p, hp, hpe⟩ := List.mem_filterMap.mp hx'
    rw [buildMap_of_nodup_keys toolKey current hc] at hp
    obtain ⟨y, hy, hye⟩ := List.mem_map.mp hp
    have h1 : p.1 = toolKey y := by rw [← hye]
    have h2 : p.2 = y := by rw [← hye]
    rw [h1] at hpe
    by_cases hs : (assocLookup (buildMap toolKey baseline) (toolKey y)).isSome
    · rw [if_pos hs] at hpe
      exact absurd hpe (by simp)
    · rw [if_neg hs] at hpe
      have h3 : y = x := Option.some_inj.mp (h2 ▸ hpe)
      intro hkey
      apply hs
      rw [h3, hkey, hbm']
      rfl
  · intro x hx
    have hx' : x ∈ removedOf (buildMap toolKey current) (buildMap toolKey baseline) := hx
    unfold removedOf at hx'
    obtain ⟨p, hp, hpe⟩ := List.mem_filterMap.mp hx'
    rw [buildMap_of_nodup_keys toolKey baseline hb] at hp
    obtain ⟨y, hy, hye⟩ := List.mem_map.mp hp
    have h1 : p.1 = toolKey y := by rw [← hye]
    have h2 : p.2 = y := by rw [← hye]
    rw [h1] at hpe
    by_cases hs : (assocLookup (buildMap toolKey current) (toolKey y)).isSome
    · rw [if_pos hs] at hpe
      exact absurd hpe (by simp)
    · rw [if_neg hs] at hpe
      have h3 : y = x := Option.some_inj.mp (h2 ▸ hpe)
      intro hkey
      apply hs
      rw [h3, hkey]
      exact Option.isSome_iff_ne_none.mpr hcm

/-- Current tool for the C5 witness: same name, new description. -/
def c5CurrTool : Tool := ⟨some "x", some "New", some (Json.obj [])⟩

/-- Baseline tool for the C5 witness: same name, old description. -/
def c5BaseTool : Tool := ⟨some "x", some "Old", some (Json.obj [])⟩

/-- Witness for claim C5 at a concrete input: one tool whose description
alone changed is reported exactly once as modified and never as
added/removed. -/
theorem modified_not_added_removed_witness :
    (([c5CurrTool].map toolKey).Nodup ∧ ([c5BaseTool].map toolKey).Nodup
      ∧ c5CurrTool ∈ [c5CurrTool] ∧ c5BaseTool ∈ [c5BaseTool]
      ∧ toolKey c5CurrTool = toolKey c5BaseTool
      ∧ toolsEqual c5CurrTool c5BaseTool = false)
    ∧ ((diff_against_baseline [c5CurrTool] [] [] [c5BaseTool] [] [] "http://t").modified_tools.filter
        (fun p => decide (toolKey p.2 = toolKey c5CurrTool)) = [(c5BaseTool, c5CurrTool)])
    ∧ (∀ x ∈ (diff_against_baseline [c5CurrTool] [] [] [c5BaseTool] [] [] "http://t").added_tools,
        toolKey x ≠ toolKey c5CurrTool)
    ∧ (∀ x ∈ (diff_against_baseline [c5CurrTool] [] [] [c5BaseTool] [] [] "http://t").removed_tools,
        toolKey x ≠ toolKey c5CurrTool) := by
  have h := modified_not_added_removed [c5CurrTool] [c5BaseTool] [] [] [] [] "http://t"
    c5CurrTool c5BaseTool (by simp) (by simp) (by simp) (by simp) (by rfl) (by rfl)
  exact ⟨⟨by simp, by simp, by simp, by simp, by rfl, by rfl⟩, h.1, h.2.1, h.2.2⟩

/-! ## Differential findings in `mcp_attack/__main__.py` (main) -/

/-- One target's entry in a baseline snapshot:
`{"tools": [...], "resources": [...], "prompts": [...]}`. -/
structure BaselineEntry where
  tools : List Tool
  resources : List Resource
  prompts : List Prompt
deriving Repr

/-- The MEDIUM "differential" finding `main` appends for an added tool. -/
def mkDifferentialFinding (url : String) (t : Tool) : Finding :=
  ⟨url, "differential", "MEDIUM", "Added tool: " ++ (t.name.getD "?"),
    "New tool since baseline — review for security impact", ""⟩

/-- The per-target differential step of `main`: diff the current
enumeration against the target's baseline entry, then append one MEDIUM
"differential" finding per added tool. -/
def applyDifferential (r : TargetResult) (base : BaselineEntry) :
    TargetResult × DiffResult :=
  let diff := diff_against_baseline r.tools r.resources r.prompts
    base.tools base.resources base.prompts r.url
  (diff.added_tools.foldl
    (fun acc t => acc.add "differential" "MEDIUM"
      ("Added tool: " ++ (t.name.getD "?"))
      "New tool since baseline — review for security impact" "") r,
   diff)

theorem added_entries_none (xs : List Tool) (bm : List (String × Tool))
    (t : Tool) (hnone : ∀ x ∈ xs, toolKey x ≠ toolKey t) :
    List.filter (fun x => decide (toolKey x = toolKey t))
      (addedOf (xs.map (fun x => (toolKey x, x))) bm) = [] := by
  induction xs with
  | nil => simp [addedOf]
  | cons x rest ih =>
    have hx : toolKey x ≠ toolKey t := hnone x (List.mem_cons_self x rest)
    have hr : ∀ y ∈ rest, toolKey y ≠ toolKey t :=
      fun y hy => hnone y (List.mem_cons_of_mem x hy)
    unfold addedOf at ih ⊢
    simp only [List.map_cons, List.filterMap_cons]
    by_cases hs : (assocLookup bm (toolKey x)).isSome
    · simp only [hs, if_true]
      exact ih hr
    · simp only [hs, Bool.false_eq_true, if_false]
      rw [List.filter_cons_of_neg (by simpa using hx)]
      exact ih hr

theorem added_entries_for_key (xs : List Tool) (bm : List (String × Tool))
    (t : Tool) (hnd : (xs.map toolKey).Nodup) (ht : t ∈ xs)
    (hb : assocLookup bm (toolKey t) = none) :
    List.filter (fun x => decide (toolKey x = toolKey t))
      (addedOf (xs.map (fun x => (toolKey x, x))) bm) = [t] := by
  induction xs with
  | nil => simp at ht
  | cons x rest ih =>
    simp only [List.map_cons, List.nodup_cons] at hnd
    obtain ⟨hx, hrest⟩ := hnd
    unfold addedOf at ih ⊢
    simp only [List.map_cons, List.filterMap_cons]
    rcases List.mem_cons.mp ht with heq | hmem
    · subst heq
      simp only [hb, Option.isSome_none, Bool.false_eq_true, if_false]
      rw [List.filter_cons_of_pos (by simp)]
      have hrec := added_entries_none rest bm t
        (fun y hy hc => hx (hc ▸ List.mem_map_of_mem toolKey hy))
      unfold addedOf at hrec
      rw [hrec]
    · have hxt : toolKey x ≠ toolKey t :=
        fun hc => hx (hc ▸ List.mem_map_of_mem toolKey hmem)
      by_cases hs : (assocLookup bm (toolKey x)).isSome
      · simp only [hs, if_true]
        exact ih hrest hmem
      · simp only [hs, Bool.false_eq_true, if_false]
        rw [List.filter_cons_of_neg (by simpa using hxt)]
        exact ih hrest hmem

theorem foldl_add_differential (ts : List Tool) (r : TargetResult) :
    ts.foldl
      (fun acc t => acc.add "differential" "MEDIUM"
        ("Added tool: " ++ (t.name.getD "?"))
        "New tool since baseline — review for security impact" "") r =
    { r with findings := r.findings ++ ts.map (mkDifferentialFinding r.url) } := by
  induction ts generalizing r with
  | nil => simp
  | cons t rest ih =>
    simp only [List.foldl_cons, List.map_cons]
    rw [ih]
    simp [TargetResult.add, mkDifferentialFinding]

/-- Claim C7: with a baseline supplied, a tool present in the current
enumeration but absent from the target's baseline entry appears (exactly
once, by key) in added_tools, and the owning result gains exactly one
MEDIUM "differential" finding per added tool, titled with the tool name. -/
theorem added_tool_differential (r : TargetResult) (base : BaselineEntry) (t : Tool)
    (h1 : (r.tools.map toolKey).Nodup) (h2 : t ∈ r.tools)
    (h3 : ∀ b ∈ base.tools, toolKey b ≠ toolKey t) :
    ((applyDifferential r base).2.added_tools.filter
        (fun x => decide (toolKey x = toolKey t)) = [t])
    ∧ (applyDifferential r base).1.findings =
        r.findings ++
          (applyDifferential r base).2.added_tools.map (mkDifferentialFinding r.url)
    ∧ mkDifferentialFinding r.url t =
        ⟨r.url, "differential", "MEDIUM", "Added tool: " ++ (t.name.getD "?"),
          "New tool since baseline — review for security impact", ""⟩ := by
  have hb : assocLookup (buildMap toolKey base.tools) (toolKey t) = none :=
    (assocLookup_buildMap_eq_none_iff toolKey base.tools (toolKey t)).mpr h3
  refine ⟨?_, ?_, rfl⟩
  · show ((addedOf (buildMap toolKey r.tools) (buildMap toolKey base.tools)).filter
      (fun x => decide (toolKey x = toolKey t))) = [t]
    rw [buildMap_of_nodup_keys toolKey r.tools h1]
    exact added_entries_for_key r.tools _ t h1 h2 hb
  · show (((diff_against_baseline r.tools r.resources r.prompts base.tools
        base.resources base.prompts r.url).added_tools).foldl
        (fun acc t => acc.add "differential" "MEDIUM"
          ("Added tool: " ++ (t.name.getD "?"))
          "New tool since baseline — review for security impact" "") r).findings =
      r.findings ++ _
    rw [foldl_add_differential]
    rfl

/-- Tool A for the C7 witness. -/
def c7ToolA : Tool := ⟨some "A", none, none⟩

/-- Tool B for the C7 witness. -/
def c7ToolB : Tool := ⟨some "B", none, none⟩

/-- Target result for the C7 witness: current enumeration [A, B]. -/
def c7Result : TargetResult :=
  ⟨"http://t", "HTTP", Json.obj [], [c7ToolA, c7ToolB], [], [], [], [], ""⟩

/-- Baseline entry for the C7 witness: baseline [A]. -/
def c7Base : BaselineEntry := ⟨[c7ToolA], [], []⟩

/-- Witness for claim C7 at a concrete input: baseline [A], current [A, B]
gives added_tools == [B] and exactly one MEDIUM differential finding for B. -/
theorem added_tool_differential_witness :
    ((c7Result.tools.map toolKey).Nodup ∧ c7ToolB ∈ c7Result.tools
      ∧ (∀ b ∈ c7Base.tools, toolKey b ≠ toolKey c7ToolB))
    ∧ ((applyDifferential c7Result c7Base).2.added_tools.filter
        (fun x => decide (toolKey x = toolKey c7ToolB)) = [c7ToolB])
    ∧ (applyDifferential c7Result c7Base).2.added_tools = [c7ToolB]
    ∧ (applyDifferential c7Result c7Base).1.findings =
        [mkDifferentialFinding "http://t" c7ToolB] := by
  have h := added_tool_differential c7Result c7Base c7ToolB
    (by simp [c7Result, c7ToolA, c7ToolB, toolKey]) (by simp [c7Result])
    (by
      intro b hb
      simp only [c7Base, List.mem_singleton] at hb
      subst hb
      simp [c7ToolA, c7ToolB, toolKey])
  refine ⟨⟨by simp [c7Result, c7ToolA, c7ToolB, toolKey], by simp [c7Result],
    by
      intro b hb
      simp only [c7Base, List.mem_singleton] at hb
      subst hb
      simp [c7ToolA, c7ToolB, toolKey]⟩, h.1, by rfl, ?_⟩
  rw [h.2.1]
  rfl

/-! ## Cross-target correlator (`scanner.py` detect_cross_shadowing) -/

/-- Python `t["name"]`: raises `KeyError` when the key is absent. -/
def toolNameE (t : Tool) : Except String String :=
  match t.name with
  | some n => .ok n
  | none => .error "KeyError: name"

/-- The finding appended per colliding tool name per owning target. -/
def mkCrossFinding (url nm : String) (servers : List String) : Finding :=
  ⟨url, "cross_shadowing", "MEDIUM",
    "Tool " ++ pyq nm ++ " exists on " ++ toString servers.length ++ " servers",
    "Servers: " ++ pyListRepr servers, ""⟩

/-- The `defaultdict(list)` built by `detect_cross_shadowing`: one url
entry per tool occurrence, keyed by `t["name"]` (which may raise). -/
def toolMapE (results : List TargetResult) :
    Except String (List (String × List String)) :=
  results.foldlM
    (fun m r => r.tools.foldlM
      (fun m t => do
        let n ← toolNameE t
        pure (dictAppend m n r.url)) m) []

/-- `detect_cross_shadowing`: build the name → urls map, then for every
name held by more than one entry append one MEDIUM finding to each result
whose url is among the owners. -/
def detect_cross_shadowing (results : List TargetResult) :
    Except String (List TargetResult) := do
  let tm ← toolMapE results
  pure (tm.foldl
    (fun rs p =>
      if p.2.length > 1 then
        rs.map (fun r =>
          if decide (r.url ∈ p.2) then
            r.add "cross_shadowing" "MEDIUM"
              ("Tool " ++ pyq p.1 ++ " exists on " ++ toString p.2.length ++ " servers")
              ("Servers: " ++ pyListRepr p.2) ""
          else r)
      else rs) results)

/-- Total twin of `toolMapE` for inputs whose tools all carry a name. -/
def toolMapT (results : List TargetResult) : List (String × List String) :=
  results.foldl
    (fun m r => r.tools.foldl
      (fun m t => dictAppend m (t.name.getD "") r.url) m) []

/-- Every tool of every result has a `name` key. -/
def allToolsNamed (results : List TargetResult) : Prop :=
  ∀ r ∈ results, ∀ t ∈ r.tools, t.name.isSome

instance (results : List TargetResult) : Decidable (allToolsNamed results) := by
  unfold allToolsNamed; infer_instance

/-- A result declares a tool with the given name. -/
def ownsTool (r : TargetResult) (n : String) : Prop :=
  ∃ t ∈ r.tools, t.name = some n

instance (r : TargetResult) (n : String) : Decidable (ownsTool r n) := by
  unfold ownsTool; infer_instance

/-- The url list a name maps to (one occurrence per declaring tool). -/
def lookupList (m : List (String × List String)) (n : String) : List String :=
  (assocLookup m n).getD []

/-- Owner urls of a name, with one occurrence per declaring tool, in
results order (characterises `toolMapT`'s entry for the name). -/
def flatOwners (results : List TargetResult) (n : String) : List String :=
  results.foldr
    (fun r acc =>
      r.tools.filterMap (fun t => if t.name.getD "" = n then some r.url else none)
      ++ acc) []

/-- Colliding names that flag a given url, in map insertion order. -/
def flaggedNames (tm : List (String × List String)) (url : String) : List String :=
  tm.filterMap (fun p => if p.2.length > 1 ∧ url ∈ p.2 then some p.1 else none)

/-- The cross-shadowing findings a given url accrues from the map. -/
def crossFindingsFor (tm : List (String × List String)) (url : String) : List Finding :=
  tm.filterMap
    (fun p =>
      if p.2.length > 1 ∧ url ∈ p.2 then some (mkCrossFinding url p.1 p.2) else none)

theorem assocLookup_mapModify (m : List (String × α)) (k k' : String) (f : α → α) :
    assocLookup (m.map (fun p => (p.1, if p.1 = k then f p.2 else p.2))) k' =
      if k = k' then (assocLookup m k).map f else assocLookup m k' := by
  induction m with
  | nil => simp [assocLookup]
  | cons p rest ih =>
    obtain ⟨k₁, w⟩ := p
    by_cases h2 : k₁ = k'
    · subst h2
      by_cases h1 : k₁ = k
      · subst h1; simp [assocLookup]
      · have hkk : ¬ (k = k₁) := fun h => h1 h.symm
        simp [assocLookup, h1, hkk]
    · by_cases h1 : k₁ = k
      · subst h1
        simp [assocLookup, h2, ih]
      · simp [assocLookup, h1, h2, ih]

theorem assocLookup_dictAppend (m : List (String × List β)) (k k' : String) (v : β) :
    assocLookup (dictAppend m k v) k' =
      if k = k' then some ((assocLookup m k).getD [] ++ [v])
      else assocLookup m k' := by
  unfold dictAppend
  by_cases hmem : (assocLookup m k).isSome
  · rw [if_pos hmem, assocLookup_mapModify m k k' (fun l => l ++ [v])]
    by_cases h : k = k'
    · subst h
      obtain ⟨w, hw⟩ := Option.isSome_iff_exists.mp hmem
      simp [hw]
    · simp [h]
  · rw [if_neg hmem, assocLookup_append]
    rw [Option.not_isSome_iff_eq_none] at hmem
    by_cases h : k = k'
    · subst h
      simp [hmem, assocLookup]
    · cases hm : assocLookup m k' with
      | some w => simp [hm, h]
      | none => simp [hm, assocLookup, h]

theorem lookupList_dictAppend (m : List (String × List String)) (k k' : String)
    (v : String) :
    lookupList (dictAppend m k v) k' =
      if k = k' then lookupList m k' ++ [v] else lookupList m k' := by
  unfold lookupList
  rw [assocLookup_dictAppend]
  by_cases h : k = k'
  · subst h; simp
  · simp [h]

theorem keysNodup_dictAppend (m : List (String × List β)) (k : String) (v : β)
    (h : keysNodup m) : keysNodup (dictAppend m k v) := by
  by_cases hmem : (assocLookup m k).isSome
  · unfold keysNodup dictAppend
    rw [if_pos hmem]
    simpa [List.map_map, Function.comp] using h
  · unfold keysNodup dictAppend
    rw [if_neg hmem]
    rw [Option.not_isSome_iff_eq_none, assocLookup_eq_none_iff] at hmem
    simp only [List.map_append, List.map_cons, List.map_nil]
    rw [List.nodup_append]
    refine ⟨h, List.nodup_singleton k, ?_⟩
    intro a ha hb
    simp only [List.mem_singleton] at hb
    subst hb
    simp only [List.mem_map] at ha
    obtain ⟨p, hp, hpk⟩ := ha
    exact hmem p hp hpk

theorem toolFoldE_eq (url : String) (ts : List Tool)
    (m : List (String × List String)) (hn : ∀ t ∈ ts, t.name.isSome) :
    ts.foldlM (fun m t => do
      let n ← toolNameE t
      pure (dictAppend m n url)) m =
    Except.ok (ts.foldl (fun m t => dictAppend m (t.name.getD "") url) m) := by
  induction ts generalizing m with
  | nil => rfl
  | cons t rest ih =>
    obtain ⟨nm, hnm⟩ := Option.isSome_iff_exists.mp (hn t (List.mem_cons_self t rest))
    rw [List.foldlM_cons, List.foldl_cons]
    have ht : toolNameE t = Except.ok nm := by simp [toolNameE, hnm]
    rw [ht]
    show rest.foldlM _ (dictAppend m nm url) = _
    rw [ih _ (fun t ht => hn t (List.mem_cons_of_mem _ ht)), hnm]
    rfl

theorem toolMapE_aux (results : List TargetResult)
    (m : List (String × List String))
    (hn : ∀ r ∈ results, ∀ t ∈ r.tools, t.name.isSome) :
    results.foldlM
      (fun m r => r.tools.foldlM
        (fun m t => do
          let n ← toolNameE t
          pure (dictAppend m n r.url)) m) m =
    Except.ok (results.foldl
      (fun m r => r.tools.foldl
        (fun m t => dictAppend m (t.name.getD "") r.url) m) m) := by
  induction results generalizing m with
  | nil => rfl
  | cons r rest ih =>
    rw [List.foldlM_cons, List.foldl_cons]
    rw [toolFoldE_eq r.url r.tools m (hn r (List.mem_cons_self r rest))]
    show rest.foldlM _ _ = _
    exact ih _ (fun r' hr' => hn r' (List.mem_cons_of_mem _ hr'))

theorem toolMapE_eq_T (results : List TargetResult) (hn : allToolsNamed results) :
    toolMapE results = Except.ok (toolMapT results) :=
  toolMapE_aux results [] hn

theorem lookupList_toolFold (url n : String) (ts : List Tool)
    (m : List (String × List String)) :
    lookupList (ts.foldl (fun m t => dictAppend m (t.name.getD "") url) m) n =
      lookupList m n ++
        ts.filterMap (fun t => if t.name.getD "" = n then some url else none) := by
  induction ts generalizing m with
  | nil => simp
  | cons t rest ih =>
    rw [List.foldl_cons, List.filterMap_cons, ih]
    by_cases h : t.name.getD "" = n
    · rw [lookupList_dictAppend]
      simp [h]
    · rw [lookupList_dictAppend]
      simp [h]

theorem lookupList_toolMapT_aux (results : List TargetResult)
    (m : List (String × List String)) (n : String) :
    lookupList (results.foldl
      (fun m r => r.tools.foldl
        (fun m t => dictAppend m (t.name.getD "") r.url) m) m) n =
      lookupList m n ++ flatOwners results n := by
  induction results generalizing m with
  | nil => simp [flatOwners]
  | cons r rest ih =>
    rw [List.foldl_cons, ih, lookupList_toolFold]
    show _ = lookupList m n ++
      (r.tools.filterMap (fun t => if t.name.getD "" = n then some r.url else none)
        ++ flatOwners rest n)
    rw [List.append_assoc]

theorem lookupList_toolMapT (results : List TargetResult) (n : String) :
    lookupList (toolMapT results) n = flatOwners results n := by
  unfold toolMapT
  rw [lookupList_toolMapT_aux]
  simp [lookupList, assocLookup]

theorem keysNodup_toolFold (url : String) (ts : List Tool)
    (m : List (String × List String)) (h : keysNodup m) :
    keysNodup (ts.foldl (fun m t => dictAppend m (t.name.getD "") url) m) := by
  induction ts generalizing m with
  | nil => exact h
  | cons t rest ih =>
    exact ih _ (keysNodup_dictAppend m (t.name.getD "") url h)

theorem keysNodup_toolMapT (results : List TargetResult) :
    keysNodup (toolMapT results) := by
  unfold toolMapT
  have : ∀ m : List (String × List String), keysNodup m →
      keysNodup (results.foldl
        (fun m r => r.tools.foldl
          (fun m t => dictAppend m (t.name.getD "") r.url) m) m) := by
    induction results with
    | nil => exact fun m h => h
    | cons r rest ih =>
      intro m h
      exact ih _ (keysNodup_toolFold r.url r.tools m h)
  exact this [] (by simp [keysNodup])

theorem detect_fold_shape (tm : List (String × List String))
    (rs : List TargetResult) :
    tm.foldl
      (fun rs p =>
        if p.2.length > 1 then
          rs.map (fun r =>
            if decide (r.url ∈ p.2) then
              r.add "cross_shadowing" "MEDIUM"
                ("Tool " ++ pyq p.1 ++ " exists on " ++ toString p.2.length ++ " servers")
                ("Servers: " ++ pyListRepr p.2) ""
            else r)
        else rs) rs =
    rs.map (fun r => tm.foldl
      (fun r p =>
        if p.2.length > 1 ∧ r.url ∈ p.2 then
          r.add "cross_shadowing" "MEDIUM"
            ("Tool " ++ pyq p.1 ++ " exists on " ++ toString p.2.length ++ " servers")
            ("Servers: " ++ pyListRepr p.2) ""
        else r) r) := by
  induction tm generalizing rs with
  | nil => simp
  | cons p rest ih =>
    simp only [List.foldl_cons]
    have hstep : (if p.2.length > 1 then
        rs.map (fun r =>
          if decide (r.url ∈ p.2) then
            r.add "cross_shadowing" "MEDIUM"
              ("Tool " ++ pyq p.1 ++ " exists on " ++ toString p.2.length ++ " servers")
              ("Servers: " ++ pyListRepr p.2) ""
          else r)
        else rs) =
      rs.map (fun r =>
        if p.2.length > 1 ∧ r.url ∈ p.2 then
          r.add "cross_shadowing" "MEDIUM"
            ("Tool " ++ pyq p.1 ++ " exists on " ++ toString p.2.length ++ " servers")
            ("Servers: " ++ pyListRepr p.2) ""
        else r) := by
      by_cases hl : p.2.length > 1
      · rw [if_pos hl]
        apply List.map_congr_left
        intro r _
        by_cases hm : r.url ∈ p.2
        · simp [hl, hm]
        · simp [hl, hm]
      · rw [if_neg hl]
        have : ∀ r ∈ rs, (if p.2.length > 1 ∧ r.url ∈ p.2 then
            r.add "cross_shadowing" "MEDIUM"
              ("Tool " ++ pyq p.1 ++ " exists on " ++ toString p.2.length ++ " servers")
              ("Servers: " ++ pyListRepr p.2) ""
          else r) = r := by
          intro r _
          rw [if_neg (fun hc => hl hc.1)]
        exact ((List.map_congr_left this).trans (List.map_id' rs)).symm
    rw [hstep, ih, List.map_map]
    rfl

theorem per_result_cross_fold (tm : List (String × List String))
    (r : TargetResult) :
    tm.foldl
      (fun r p =>
        if p.2.length > 1 ∧ r.url ∈ p.2 then
          r.add "cross_shadowing" "MEDIUM"
            ("Tool " ++ pyq p.1 ++ " exists on " ++ toString p.2.length ++ " servers")
            ("Servers: " ++ pyListRepr p.2) ""
        else r) r =
    { r with findings := r.findings ++ crossFindingsFor tm r.url } := by
  induction tm generalizing r with
  | nil => simp [crossFindingsFor]
  | cons p rest ih =>
    simp only [List.foldl_cons]
    unfold crossFindingsFor
    simp only [List.filterMap_cons]
    by_cases hc : p.2.length > 1 ∧ r.url ∈ p.2
    · rw [if_pos hc, ih]
      unfold crossFindingsFor
      simp only [TargetResult.add, mkCrossFinding]
      rw [if_pos hc]
      simp
    · rw [if_neg hc, ih]
      unfold crossFindingsFor
      rw [if_neg hc]

theorem detect_cross_shadowing_ok (results : List TargetResult)
    (hn : allToolsNamed results) :
    detect_cross_shadowing results = Except.ok (results.map (fun r =>
      { r with findings := r.findings ++ crossFindingsFor (toolMapT results) r.url })) := by
  unfold detect_cross_shadowing
  rw [toolMapE_eq_T results hn]
  show Except.ok _ = _
  rw [detect_fold_shape]
  congr 1
  apply List.map_congr_left
  intro r _
  exact per_result_cross_fold (toolMapT results) r

theorem mem_flaggedNames_keys (tm : List (String × List String)) (url n : String)
    (h : n ∈ flaggedNames tm url) : n ∈ tm.map Prod.fst := by
  unfold flaggedNames at h
  obtain ⟨p, hp, hpe⟩ := List.mem_filterMap.mp h
  by_cases hc : p.2.length > 1 ∧ url ∈ p.2
  · rw [if_pos hc] at hpe
    rw [Option.some_inj] at hpe
    exact hpe ▸ List.mem_map_of_mem Prod.fst hp
  · rw [if_neg hc] at hpe
    exact absurd hpe (by simp)

theorem count_flaggedNames (tm : List (String × List String)) (url n : String)
    (hnd : keysNodup tm) :
    (flaggedNames tm url).count n =
      (match assocLookup tm n with
       | none => 0
       | some s => if s.length > 1 ∧ url ∈ s then 1 else 0) := by
  induction tm with
  | nil => simp [flaggedNames, assocLookup]
  | cons p rest ih =>
    unfold keysNodup at hnd
    simp only [List.map_cons, List.nodup_cons] at hnd
    obtain ⟨hp, hrest⟩ := hnd
    unfold flaggedNames
    simp only [List.filterMap_cons]
    by_cases hk : p.1 = n
    · subst hk
      have hzero : (flaggedNames rest url).count p.1 = 0 :=
        List.count_eq_zero.mpr (fun hmem => hp (mem_flaggedNames_keys rest url p.1 hmem))
      by_cases hc : p.2.length > 1 ∧ url ∈ p.2
      · rw [if_pos hc]
        rw [List.count_cons]
        unfold flaggedNames at hzero
        rw [hzero]
        simp [assocLookup, hc]
      · rw [if_neg hc]
        unfold flaggedNames at hzero
        rw [hzero]
        simp [assocLookup, hc]
    · have hlook : assocLookup (p :: rest) n = assocLookup rest n := by
        simp [assocLookup, hk]
      rw [hlook]
      by_cases hc : p.2.length > 1 ∧ url ∈ p.2
      · rw [if_pos hc, List.count_cons]
        have : (p.1 == n) = false := by simp [hk]
        rw [this]
        simpa using ih hrest
      · rw [if_neg hc]
        exact ih hrest

theorem crossFindings_map_flagged (tm : List (String × List String)) (url : String)
    (hnd : keysNodup tm) :
    crossFindingsFor tm url =
      (flaggedNames tm url).map
        (fun nm => mkCrossFinding url nm (lookupList tm nm)) := by
  induction tm with
  | nil => simp [crossFindingsFor, flaggedNames]
  | cons p rest ih =>
    unfold keysNodup at hnd
    simp only [List.map_cons, List.nodup_cons] at hnd
    obtain ⟨hp, hrest⟩ := hnd
    have htail : ∀ nm ∈ flaggedNames rest url,
        mkCrossFinding url nm (lookupList (p :: rest) nm) =
          mkCrossFinding url nm (lookupList rest nm) := by
      intro nm hnm
      have hne : p.1 ≠ nm := fun hc => hp (hc ▸ mem_flaggedNames_keys rest url nm hnm)
      unfold lookupList
      simp [assocLookup, hne]
    by_cases hc : p.2.length > 1 ∧ url ∈ p.2
    · have hgoal : crossFindingsFor (p :: rest) url =
          mkCrossFinding url p.1 p.2 :: crossFindingsFor rest url := by
        unfold crossFindingsFor
        simp only [List.filterMap_cons]
        rw [if_pos hc]
      have hflag : flaggedNames (p :: rest) url = p.1 :: flaggedNames rest url := by
        unfold flaggedNames
        simp only [List.filterMap_cons]
        rw [if_pos hc]
      have hhead : lookupList (p :: rest) p.1 = p.2 := by
        unfold lookupList
        simp [assocLookup]
      rw [hgoal, hflag, List.map_cons, hhead, ih hrest]
      congr 1
      exact (List.map_congr_left htail).symm
    · have hgoal : crossFindingsFor (p :: rest) url = crossFindingsFor rest url := by
        unfold crossFindingsFor
        simp only [List.filterMap_cons]
        rw [if_neg hc]
      have hflag : flaggedNames (p :: rest) url = flaggedNames rest url := by
        unfold flaggedNames
        simp only [List.filterMap_cons]
        rw [if_neg hc]
      rw [hgoal, hflag, ih hrest]
      exact (List.map_congr_left htail).symm

theorem mem_flatOwners (results : List TargetResult) (n u : String) :
    u ∈ flatOwners results n ↔
      ∃ r ∈ results, r.url = u ∧ ∃ t ∈ r.tools, t.name.getD "" = n := by
  induction results with
  | nil => simp [flatOwners]
  | cons r rest ih =>
    unfold flatOwners
    simp only [List.foldr_cons, List.mem_append]
    constructor
    · intro h
      rcases h with h | h
      · obtain ⟨t, ht, hte⟩ := List.mem_filterMap.mp h
        by_cases hm : t.name.getD "" = n
        · rw [if_pos hm, Option.some_inj] at hte
          exact ⟨r, List.mem_cons_self r rest, hte, t, ht, hm⟩
        · rw [if_neg hm] at hte
          exact absurd hte (by simp)
      · obtain ⟨r', hr', hru, hex⟩ := (ih).mp h
        exact ⟨r', List.mem_cons_of_mem r hr', hru, hex⟩
    · intro ⟨r', hr', hru, t, ht, htn⟩
      rcases List.mem_cons.mp hr' with heq | hmem
      · subst heq
        left
        exact List.mem_filterMap.mpr ⟨t, ht, by rw [if_pos htn, hru]⟩
      · right
        exact ih.mpr ⟨r', hmem, hru, t, ht, htn⟩

theorem countP_le_flatOwners (results : List TargetResult) (n : String) :
    results.countP (fun r => decide (ownsTool r n)) ≤ (flatOwners results n).length := by
  induction results with
  | nil => simp [flatOwners]
  | cons r rest ih =>
    rw [List.countP_cons]
    unfold flatOwners
    simp only [List.foldr_cons, List.length_append]
    by_cases ho : ownsTool r n
    · have hmem : r.url ∈ r.tools.filterMap
          (fun t => if t.name.getD "" = n then some r.url else none) := by
        obtain ⟨t, ht, htn⟩ := ho
        exact List.mem_filterMap.mpr ⟨t, ht, by rw [if_pos (by rw [htn]; rfl)]⟩
      have hlen : 1 ≤ (r.tools.filterMap
          (fun t => if t.name.getD "" = n then some r.url else none)).length :=
        List.length_pos.mpr (List.ne_nil_of_mem hmem)
      rw [if_pos (decide_eq_true ho)]
      unfold flatOwners at ih
      omega
    · rw [if_neg (by simp [ho])]
      unfold flatOwners at ih
      omega

theorem mem_flatOwners_iff_owns (results : List TargetResult) (n : String)
    (hn : allToolsNamed results)
    (hu : (results.map (fun r => r.url)).Nodup)
    (r : TargetResult) (hr : r ∈ results) :
    r.url ∈ flatOwners results n ↔ ownsTool r n := by
  constructor
  · intro h
    obtain ⟨r', hr', hru, t, ht, htn⟩ := (mem_flatOwners results n r.url).mp h
    have heq : r' = r := List.inj_on_of_nodup_map hu hr' hr hru
    subst heq
    have hsome := hn r' hr t ht
    obtain ⟨nm, hnm⟩ := Option.isSome_iff_exists.mp hsome
    rw [hnm] at htn
    simp only [Option.getD_some] at htn
    exact ⟨t, ht, by rw [hnm, htn]⟩
  · intro hmem
    obtain ⟨t, ht, htn⟩ := hmem
    exact (mem_flatOwners results n r.url).mpr
      ⟨r, hr, rfl, t, ht, by rw [htn]; rfl⟩

/-- Claim C4: run once over the complete result set, detect_cross_shadowing
succeeds on named tools and appends, for every tool name owned by at least
two targets (distinct urls), exactly one MEDIUM cross_shadowing finding per
owning target, whose detail lists the owner urls (the colliding peers). -/
theorem detect_cross_shadowing_per_target (results : List TargetResult) (n : String)
    (hn : allToolsNamed results)
    (hu : (results.map (fun r => r.url)).Nodup)
    (ho : 2 ≤ results.countP (fun r => decide (ownsTool r n))) :
    detect_cross_shadowing results = Except.ok (results.map (fun r =>
      { r with findings := r.findings ++ crossFindingsFor (toolMapT results) r.url }))
    ∧ (∀ r ∈ results, crossFindingsFor (toolMapT results) r.url =
        (flaggedNames (toolMapT results) r.url).map
          (fun nm => mkCrossFinding r.url nm (lookupList (toolMapT results) nm)))
    ∧ lookupList (toolMapT results) n = flatOwners results n
    ∧ (∀ r ∈ results, (flaggedNames (toolMapT results) r.url).count n =
        if ownsTool r n then 1 else 0) := by
  have hnd := keysNodup_toolMapT results
  refine ⟨detect_cross_shadowing_ok results hn,
    fun r _ => crossFindings_map_flagged _ r.url hnd,
    lookupList_toolMapT results n, ?_⟩
  intro r hr
  rw [count_flaggedNames _ r.url n hnd]
  have hlk : lookupList (toolMapT results) n = flatOwners results n :=
    lookupList_toolMapT results n
  have hlen2 : 2 ≤ (flatOwners results n).length :=
    le_trans ho (countP_le_flatOwners results n)
  have hne : flatOwners results n ≠ [] := by
    intro hnil
    rw [hnil] at hlen2
    simp at hlen2
  have hsome : assocLookup (toolMapT results) n = some (flatOwners results n) := by
    unfold lookupList at hlk
    cases hcase : assocLookup (toolMapT results) n with
    | none =>
      rw [hcase] at hlk
      simp only [Option.getD_none] at hlk
      exact absurd hlk.symm hne
    | some s =>
      rw [hcase] at hlk
      simp only [Option.getD_some] at hlk
      rw [hlk]
  rw [hsome]
  show (if (flatOwners results n).length > 1 ∧ r.url ∈ flatOwners results n
    then 1 else 0) = _
  by_cases how : ownsTool r n
  · rw [if_pos how]
    have hmem : r.url ∈ flatOwners results n :=
      (mem_flatOwners_iff_owns results n hn hu r hr).mpr how
    rw [if_pos ⟨by omega, hmem⟩]
  · rw [if_neg how]
    rw [if_neg (fun hc => how ((mem_flatOwners_iff_owns results n hn hu r hr).mp hc.2))]

/-- First target of the C4 witness, declaring a tool named search. -/
def c4R1 : TargetResult :=
  ⟨"http://a", "HTTP", Json.obj [], [⟨some "search", none, none⟩], [], [], [], [], ""⟩

/-- Second target of the C4 witness, declaring a tool named search. -/
def c4R2 : TargetResult :=
  ⟨"http://b", "HTTP", Json.obj [], [⟨some "search", none, none⟩], [], [], [], [], ""⟩

/-- Third target of the C4 witness, declaring a tool named search. -/
def c4R3 : TargetResult :=
  ⟨"http://c", "HTTP", Json.obj [], [⟨some "search", none, none⟩], [], [], [], [], ""⟩

/-- Witness for claim C4 at a concrete input: three targets each declaring
a tool named `search` get exactly one MEDIUM finding each, whose detail
lists all three owner urls (so each names the other two as peers). -/
theorem detect_cross_shadowing_per_target_witness :
    (allToolsNamed [c4R1, c4R2, c4R3]
      ∧ ([c4R1, c4R2, c4R3].map (fun r => r.url)).Nodup
      ∧ 2 ≤ [c4R1, c4R2, c4R3].countP (fun r => decide (ownsTool r "search")))
    ∧ (∀ r ∈ [c4R1, c4R2, c4R3],
        (flaggedNames (toolMapT [c4R1, c4R2, c4R3]) r.url).count "search" =
          if ownsTool r "search" then 1 else 0)
    ∧ detect_cross_shadowing [c4R1, c4R2, c4R3] =
        Except.ok
          [{ c4R1 with findings :=
              [mkCrossFinding "http://a" "search" ["http://a", "http://b", "http://c"]] },
           { c4R2 with findings :=
              [mkCrossFinding "http://b" "search" ["http://a", "http://b", "http://c"]] },
           { c4R3 with findings :=
              [mkCrossFinding "http://c" "search" ["http://a", "http://b", "http://c"]] }]
    ∧ (mkCrossFinding "http://a" "search" ["http://a", "http://b", "http://c"]).severity
        = "MEDIUM"
    ∧ (mkCrossFinding "http://a" "search" ["http://a", "http://b", "http://c"]).detail
        = "Servers: [" ++ pyq "http://a" ++ ", " ++ pyq "http://b" ++ ", "
            ++ pyq "http://c" ++ "]" := by
  have h := detect_cross_shadowing_per_target [c4R1, c4R2, c4R3] "search"
    (by decide) (by decide) (by decide)
  refine ⟨⟨by decide, by decide, by decide⟩, h.2.2.2, ?_, rfl, rfl⟩
  rw [h.1]
  rfl

/-! ## Rug-pull check (`mcp_attack/checks/behavioral.py`) -/

/-- `{t["name"]: t for t in tools}` — raises KeyError on a nameless tool. -/
def toolsByNameE (ts : List Tool) : Except String (List (String × Tool)) :=
  ts.foldlM (fun m t => do
    let n ← toolNameE t
    pure (dictInsert m n t)) []

/-- Names in the second snapshot's map missing from the first
(`set(t2) - set(t1)`; listed in second-snapshot insertion order, which is
immaterial to the emitted finding since it sorts and counts). -/
def addedNamesOf (t1 t2 : List (String × Tool)) : List String :=
  t2.filterMap (fun p => if (assocLookup t1 p.1).isSome then none else some p.1)

/-- Names in the first snapshot's map missing from the second. -/
def removedNamesOf (t1 t2 : List (String × Tool)) : List String :=
  t1.filterMap (fun p => if (assocLookup t2 p.1).isSome then none else some p.1)

/-- Common names whose `description` differs between the snapshots
(`set(t1) & set(t2)` iterated here in first-snapshot insertion order; all
emitted facts are order-independent). -/
def descChangedNames (t1 t2 : List (String × Tool)) : List String :=
  t1.filterMap (fun p =>
    match assocLookup t2 p.1 with
    | none => none
    | some q => if p.2.description = q.description then none else some p.1)

/-- The single HIGH finding for appeared tools. -/
def appearedFinding (url : String) (names : List String) : Finding :=
  ⟨url, "rug_pull", "HIGH",
    "Rug pull: " ++ toString names.length ++ " tool(s) appeared after initial listing",
    "New: " ++ pyListRepr (sortStrings names), ""⟩

/-- The single HIGH finding for disappeared tools. -/
def disappearedFinding (url : String) (names : List String) : Finding :=
  ⟨url, "rug_pull", "HIGH",
    "Rug pull: " ++ toString names.length ++ " tool(s) disappeared",
    "Removed: " ++ pyListRepr (sortStrings names), ""⟩

/-- The CRITICAL finding for one description mutation. -/
def descChangedFinding (url nm : String) (before after : Option String) : Finding :=
  ⟨url, "rug_pull", "CRITICAL",
    "Rug pull: tool " ++ pyq nm ++ " description changed between calls",
    "Before: " ++ (before.getD "").take 150 ++ "\nAfter:  " ++ (after.getD "").take 150,
    ""⟩

/-- The diffing core of `check_rug_pull`, applied to the tool lists of the
two `tools/list` snapshots: one HIGH finding if any tool appeared, one HIGH
finding if any disappeared, and one CRITICAL finding per common tool whose
description changed. -/
def rugPullCore (url : String) (first second : List Tool) :
    Except String (List Finding) := do
  let t1 ← toolsByNameE first
  let t2 ← toolsByNameE second
  let added := addedNamesOf t1 t2
  let removed := removedNamesOf t1 t2
  let fs1 := if added.isEmpty then [] else [appearedFinding url added]
  let fs2 := if removed.isEmpty then [] else [disappearedFinding url removed]
  let fs3 := t1.filterMap (fun p =>
    match assocLookup t2 p.1 with
    | none => none
    | some q =>
      if p.2.description = q.description then none
      else some (descChangedFinding url p.1 p.2.description q.description))
  pure (fs1 ++ fs2 ++ fs3)

theorem toolsByNameE_aux (ts : List Tool) (m : List (String × Tool))
    (hn : ∀ t ∈ ts, t.name.isSome) :
    ts.foldlM (fun m t => do
      let n ← toolNameE t
      pure (dictInsert m n t)) m =
    Except.ok (ts.foldl (fun m t => dictInsert m (toolKey t) t) m) := by
  induction ts generalizing m with
  | nil => rfl
  | cons t rest ih =>
    obtain ⟨nm, hnm⟩ := Option.isSome_iff_exists.mp (hn t (List.mem_cons_self t rest))
    rw [List.foldlM_cons, List.foldl_cons]
    have ht : toolNameE t = Except.ok nm := by simp [toolNameE, hnm]
    rw [ht]
    show rest.foldlM _ (dictInsert m nm t) = _
    rw [ih _ (fun t ht => hn t (List.mem_cons_of_mem _ ht))]
    unfold toolKey
    rw [hnm]
    rfl

theorem toolsByNameE_eq (ts : List Tool) (hn : ∀ t ∈ ts, t.name.isSome) :
    toolsByNameE ts = Except.ok (buildMap toolKey ts) :=
  toolsByNameE_aux ts [] hn

theorem descChanged_triples (t1 t2 : List (String × Tool)) (url : String) :
    (t1.filterMap (fun p =>
      match assocLookup t2 p.1 with
      | none => none
      | some q =>
        if p.2.description = q.description then none
        else some (descChangedFinding url p.1 p.2.description q.description))).map
      (fun f => (f.check, f.severity, f.title)) =
    (descChangedNames t1 t2).map (fun nm =>
      ("rug_pull", "CRITICAL",
        "Rug pull: tool " ++ pyq nm ++ " description changed between calls")) := by
  induction t1 with
  | nil => simp [descChangedNames]
  | cons p rest ih =>
    unfold descChangedNames
    simp only [List.filterMap_cons]
    cases h2 : assocLookup t2 p.1 with
    | none =>
      unfold descChangedNames at ih
      exact ih
    | some q =>
      dsimp only
      by_cases hd : p.2.description = q.description
      · rw [if_pos hd, if_pos hd]
        unfold descChangedNames at ih
        exact ih
      · rw [if_neg hd, if_neg hd]
        simp only [List.map_cons]
        unfold descChangedNames at ih
        rw [ih]
        rfl

theorem descChanged_all_critical (t1 t2 : List (String × Tool)) (url : String) :
    ∀ f ∈ t1.filterMap (fun p =>
      match assocLookup t2 p.1 with
      | none => none
      | some q =>
        if p.2.description = q.description then none
        else some (descChangedFinding url p.1 p.2.description q.description)),
      f.severity = "CRITICAL" := by
  intro f hf
  obtain ⟨p, _, hpe⟩ := List.mem_filterMap.mp hf
  cases h2 : assocLookup t2 p.1 with
  | none =>
    rw [h2] at hpe
    exact absurd hpe (by simp)
  | some q =>
    rw [h2] at hpe
    dsimp only at hpe
    by_cases hd : p.2.description = q.description
    · rw [if_pos hd] at hpe
      exact absurd hpe (by simp)
    · rw [if_neg hd, Option.some_inj] at hpe
      rw [← hpe]
      rfl

/-- Claim C8: on two named snapshots, the rug-pull diff emits one HIGH
finding if any tool appeared and one if any disappeared, and exactly one
CRITICAL "description changed" finding naming the single common tool whose
description differs. -/
theorem rug_pull_description_change (url : String) (first second : List Tool)
    (nm : String)
    (hn1 : ∀ t ∈ first, t.name.isSome) (hn2 : ∀ t ∈ second, t.name.isSome)
    (hch : descChangedNames (buildMap toolKey first) (buildMap toolKey second) = [nm]) :
    ∃ fs, rugPullCore url first second = Except.ok fs
    ∧ (fs.filter (fun f => decide (f.severity = "CRITICAL"))).map
        (fun f => (f.check, f.severity, f.title)) =
      [("rug_pull", "CRITICAL",
        "Rug pull: tool " ++ pyq nm ++ " description changed between calls")]
    ∧ (addedNamesOf (buildMap toolKey first) (buildMap toolKey second) ≠ [] →
        appearedFinding url
          (addedNamesOf (buildMap toolKey first) (buildMap toolKey second)) ∈ fs)
    ∧ (removedNamesOf (buildMap toolKey first) (buildMap toolKey second) ≠ [] →
        disappearedFinding url
          (removedNamesOf (buildMap toolKey first) (buildMap toolKey second)) ∈ fs) := by
  refine ⟨(if (addedNamesOf (buildMap toolKey first) (buildMap toolKey second)).isEmpty
      then []
      else [appearedFinding url
        (addedNamesOf (buildMap toolKey first) (buildMap toolKey second))]) ++
    (if (removedNamesOf (buildMap toolKey first) (buildMap toolKey second)).isEmpty
      then []
      else [disappearedFinding url
        (removedNamesOf (buildMap toolKey first) (buildMap toolKey second))]) ++
    ((buildMap toolKey first).filterMap (fun p =>
      match assocLookup (buildMap toolKey second) p.1 with
      | none => none
      | some q =>
        if p.2.description = q.description then none
        else some (descChangedFinding url p.1 p.2.description q.description))),
    ?_, ?_, ?_, ?_⟩
  · unfold rugPullCore
    rw [toolsByNameE_eq first hn1, toolsByNameE_eq second hn2]
    rfl
  · rw [List.filter_append, List.filter_append]
    have hf1 : List.filter (fun f => decide (f.severity = "CRITICAL"))
        (if (addedNamesOf (buildMap toolKey first) (buildMap toolKey second)).isEmpty
          then []
          else [appearedFinding url
            (addedNamesOf (buildMap toolKey first) (buildMap toolKey second))]) = [] := by
      by_cases h : (addedNamesOf (buildMap toolKey first) (buildMap toolKey second)).isEmpty
      · rw [if_pos h]
        rfl
      · rw [if_neg h]
        rfl
    have hf2 : List.filter (fun f => decide (f.severity = "CRITICAL"))
        (if (removedNamesOf (buildMap toolKey first) (buildMap toolKey second)).isEmpty
          then []
          else [disappearedFinding url
            (removedNamesOf (buildMap toolKey first) (buildMap toolKey second))]) = [] := by
      by_cases h : (removedNamesOf (buildMap toolKey first) (buildMap toolKey second)).isEmpty
      · rw [if_pos h]
        rfl
      · rw [if_neg h]
        rfl
    rw [hf1, hf2]
    have hf3 := List.filter_eq_self.mpr
      (fun f hf => decide_eq_true
        (descChanged_all_critical (buildMap toolKey first)
          (buildMap toolKey second) url f hf))
    rw [hf3]
    simp only [List.nil_append]
    rw [descChanged_triples, hch]
    rfl
  · intro hne
    apply List.mem_append.mpr
    left
    apply List.mem_append.mpr
    left
    rw [if_neg (by simp [List.isEmpty_eq_false.mpr hne])]
    exact List.mem_singleton.mpr rfl
  · intro hne
    apply List.mem_append.mpr
    left
    apply List.mem_append.mpr
    right
    rw [if_neg (by simp [List.isEmpty_eq_false.mpr hne])]
    exact List.mem_singleton.mpr rfl

/-- First-snapshot tool for the C8 witness. -/
def c8ToolOld : Tool := ⟨some "x", some "Old", none⟩

/-- Second-snapshot tool for the C8 witness: same name, new description. -/
def c8ToolNew : Tool := ⟨some "x", some "New", none⟩

/-- Witness for claim C8 at a concrete input: two snapshots where one
tool's description changed yield exactly one CRITICAL finding naming it. -/
theorem rug_pull_description_change_witness :
    ((∀ t ∈ [c8ToolOld], t.name.isSome) ∧ (∀ t ∈ [c8ToolNew], t.name.isSome)
      ∧ descChangedNames (buildMap toolKey [c8ToolOld])
          (buildMap toolKey [c8ToolNew]) = ["x"])
    ∧ rugPullCore "http://t" [c8ToolOld] [c8ToolNew] =
        Except.ok [descChangedFinding "http://t" "x" (some "Old") (some "New")]
    ∧ (∃ fs, rugPullCore "http://t" [c8ToolOld] [c8ToolNew] = Except.ok fs
        ∧ (fs.filter (fun f => decide (f.severity = "CRITICAL"))).map
            (fun f => (f.check, f.severity, f.title)) =
          [("rug_pull", "CRITICAL",
            "Rug pull: tool " ++ pyq "x" ++ " description changed between calls")]
        ∧ (addedNamesOf (buildMap toolKey [c8ToolOld]) (buildMap toolKey [c8ToolNew]) ≠ [] →
            appearedFinding "http://t"
              (addedNamesOf (buildMap toolKey [c8ToolOld])
                (buildMap toolKey [c8ToolNew])) ∈ fs)
        ∧ (removedNamesOf (buildMap toolKey [c8ToolOld]) (buildMap toolKey [c8ToolNew]) ≠ [] →
            disappearedFinding "http://t"
              (removedNamesOf (buildMap toolKey [c8ToolOld])
                (buildMap toolKey [c8ToolNew])) ∈ fs)) := by
  refine ⟨⟨by decide, by decide, by decide⟩, by rfl, ?_⟩
  exact rug_pull_description_change "http://t" [c8ToolOld] [c8ToolNew] "x"
    (by decide) (by decide) (by decide)

/-! ## Session behaviour and the check framework
(`core/session.py` and `checks/__init__.py` are not under src/; the session
is modelled from the spec as a reply oracle consumed call by call, and
`run_all_checks` is modelled from spec sections 4.3/4.4/7(e).) -/

/-- Whether a JSON value is an object — the only values on which Python
attribute access `.get(...)` succeeds among the shapes a `result` member
can take. -/
def Json.isObj : Json → Bool
  | .obj _ => true
  | _ => false

/-- Modelled from the spec: a reply to a `tools/resources/prompts` list
call, as the enumerator and the rug-pull check read it (spec 4.1:
`Session.call` parses the reply and returns it, or `null` after exhausted
retries or an unparsable reply). `noReply` covers `null` and a falsy reply
(both fail the `if tr` / `if not first` truthiness guards identically);
`noResult` is a truthy reply without a `"result"` member; `objResult p`
is a reply whose `"result"` member is an object, with `p` the parsed
payload under the list key (`none` when the key is absent, so the
source's `.get(key, [])` default applies; per spec 4.2(5) a successful
result's payload is a sequence of maps, typed here as the scanner's
tool/resource/prompt records); `scalarResult j h` is a reply whose
`"result"` member is the non-object value `j` — the shape on which the
source's `.get` raises AttributeError. -/
inductive ListReply (α : Type) where
  | noReply : ListReply α
  | noResult : ListReply α
  | objResult : Option α → ListReply α
  | scalarResult : (j : Json) → Json.isObj j = false → ListReply α

/-- Python truthiness of a list-call reply (`if tr`, `if not first`): only
a missing/falsy reply is falsy. -/
def ListReply.truthy : ListReply α → Bool
  | .noReply => false
  | _ => true

/-- `reply.get("result", dict()).get(key, [])` on a reply already known
truthy: the parsed payload, `[]` when the `result` member or the key is
absent, AttributeError when the `result` member is a non-object. (The
`noReply` arm is unreachable behind the truthiness guard at both call
sites; its value is immaterial.) -/
def ListReply.getPayload : ListReply (List α) → Except String (List α)
  | .objResult p => .ok (p.getD [])
  | .scalarResult _ _ => .error "AttributeError: get"
  | .noResult => .ok []
  | .noReply => .ok []

/-- Modelled from the spec: a session's observable behaviour
(`core/session.py` is absent from src/). `Session.call` returns the parsed
JSON-RPC reply or `None` after exhausting retries; replies are modelled at
the granularity the enumerator and checks consume them: the `initialize`
reply as a parsed object, list replies as `ListReply` values carrying the
raw shape of the `result` member, and the two robustness-probe replies as
parsed objects. Successive `tools/list` calls consume `toolsResps` in
order. -/
structure SessionBehavior where
  initResp : Option (List (String × Json))
  toolsResps : List (ListReply (List Tool))
  resourcesResp : ListReply (List Resource)
  promptsResp : ListReply (List Prompt)
  unknownMethodResp : Option (List (String × Json))
  toolsCallResp : Option (List (String × Json))
  sseUrl : Option String
  postUrl : String

/-- One `tools/list` call: consume the next scripted reply (an exhausted
script means the server stopped answering: no reply). -/
def popToolsList (s : SessionBehavior) : ListReply (List Tool) × SessionBehavior :=
  (s.toolsResps.head?.getD .noReply, { s with toolsResps := s.toolsResps.tail })

/-- The state a check acts on: the target's result plus the live session. -/
def CheckState : Type := TargetResult × SessionBehavior

/-- `time_check` (checks/base.py): the context manager records the check's
duration into `result.timings[name]` on exit, whether the body returned
normally or raised (the exception, if any, propagates unchanged). -/
def withTimeCheck (name : String) (dur : Nat)
    (body : CheckState → CheckState × Option String) :
    CheckState → CheckState × Option String :=
  fun st =>
    let res := body st
    ((({ res.1.1 with timings := dictInsert res.1.1.timings name dur },
        res.1.2) : CheckState), res.2)

/-- Number of entries under a key. -/
def countKey (m : List (String × α)) (k : String) : Nat :=
  m.countP (fun p => decide (p.1 = k))

theorem countKey_of_nodup (m : List (String × α)) (k : String)
    (h : keysNodup m) :
    countKey m k = if (assocLookup m k).isSome then 1 else 0 := by
  induction m with
  | nil => simp [countKey, assocLookup]
  | cons p rest ih =>
    unfold keysNodup at h
    simp only [List.map_cons, List.nodup_cons] at h
    obtain ⟨hp, hrest⟩ := h
    unfold countKey
    rw [List.countP_cons]
    by_cases hk : p.1 = k
    · have hz : rest.countP (fun p => decide (p.1 = k)) = 0 := by
        apply List.countP_eq_zero.mpr
        intro q hq
        simp only [decide_eq_true_eq]
        intro hc
        exact hp (hk ▸ hc ▸ List.mem_map_of_mem Prod.fst hq)
      unfold countKey at ih
      rw [hz]
      simp [assocLookup, hk]
    · unfold countKey at ih
      rw [ih hrest]
      simp [assocLookup, hk]

theorem countKey_dictInsert_nodup (m : List (String × α)) (k : String) (v : α)
    (h : keysNodup m) :
    countKey (dictInsert m k v) k = 1 := by
  rw [countKey_of_nodup _ _ (keysNodup_dictInsert m k v h),
    assocLookup_dictInsert]
  simp

/-- Claim C9: every wrapped check invocation writes exactly one timing
entry under its check name (holding the measured duration), whatever the
body did: appended findings, found nothing, or raised — and a raised
exception still propagates. -/
theorem time_check_records_once (name : String) (dur : Nat)
    (body : CheckState → CheckState × Option String) (st : CheckState)
    (h : keysNodup (body st).1.1.timings) :
    countKey (withTimeCheck name dur body st).1.1.timings name = 1
    ∧ assocLookup (withTimeCheck name dur body st).1.1.timings name = some dur
    ∧ (withTimeCheck name dur body st).2 = (body st).2 := by
  refine ⟨?_, ?_, rfl⟩
  · show countKey (dictInsert (body st).1.1.timings name dur) name = 1
    exact countKey_dictInsert_nodup _ name dur h
  · show assocLookup (dictInsert (body st).1.1.timings name dur) name = some dur
    rw [assocLookup_dictInsert]
    simp

/-- A body for the C9 witness that raises after touching nothing. -/
def c9RaisingBody : CheckState → CheckState × Option String :=
  fun st => (st, some "boom")

/-- Session with no scripted replies, for witnesses. -/
def quietSession : SessionBehavior :=
  ⟨none, [], .noReply, .noReply, none, none, none, ""⟩

/-- Witness for claim C9 at a concrete input: a raising check body still
gets exactly one timing entry, and the exception propagates. -/
theorem time_check_records_once_witness :
    keysNodup (c9RaisingBody (TargetResult.fresh "http://t", quietSession)).1.1.timings
    ∧ countKey (withTimeCheck "rug_pull" 3 c9RaisingBody
        (TargetResult.fresh "http://t", quietSession)).1.1.timings "rug_pull" = 1
    ∧ assocLookup (withTimeCheck "rug_pull" 3 c9RaisingBody
        (TargetResult.fresh "http://t", quietSession)).1.1.timings "rug_pull" = some 3
    ∧ (withTimeCheck "rug_pull" 3 c9RaisingBody
        (TargetResult.fresh "http://t", quietSession)).2 =
      (c9RaisingBody (TargetResult.fresh "http://t", quietSession)).2 := by
  have h := time_check_records_once "rug_pull" 3 c9RaisingBody
    (TargetResult.fresh "http://t", quietSession) (by decide)
  exact ⟨by decide, h.1, h.2.1, h.2.2⟩

/-! ## Static and cross-target checks
(`checks/permissions.py`, `checks/chaining.py`, `checks/behavioral.py`,
`patterns/rules.py`, `core/constants.py`) -/

/-- `SHADOW_TARGETS` from core/constants.py (a Python set; only membership
is ever used, so a list is an adequate model). -/
def SHADOW_TARGETS : List String :=
  ["ls", "cat", "echo", "read", "write", "open", "close", "get", "set",
   "list", "search", "find", "help", "info", "status", "ping", "run",
   "execute", "create", "delete", "update", "fetch", "send", "post",
   "memory_read", "memory_write", "file_read", "file_write",
   "web_search", "browser", "calculator", "send_email", "send_message",
   "think", "plan", "act", "observe", "reflect"]

/-- `ATTACK_CHAIN_PATTERNS` from core/constants.py. -/
def ATTACK_CHAIN_PATTERNS : List (String × String) :=
  [("prompt_injection", "code_execution"),
   ("prompt_injection", "token_theft"),
   ("code_execution", "token_theft"),
   ("code_execution", "remote_access"),
   ("indirect_injection", "token_theft"),
   ("indirect_injection", "remote_access"),
   ("tool_poisoning", "token_theft")]

/-- Naive substring test at the character level (total and executable). -/
def listHasPrefix : List Char → List Char → Bool
  | [], _ => true
  | _ :: _, [] => false
  | c :: cs, d :: ds => c == d && listHasPrefix cs ds

/-- `needle` occurs inside `hay` (Python `needle in hay` / a literal
alternation regex matching). -/
def strContains (hay needle : String) : Bool :=
  let rec go : List Char → Bool
    | [] => needle.toList.isEmpty
    | c :: cs => listHasPrefix needle.toList (c :: cs) || go cs
  go hay.toList

/-- A `DANGEROUS_TOOL_PATTERNS` rule: category, the raw regex text (kept
for the finding's evidence field), its literal alternatives (each of these
regexes is an alternation of literal words, so `re.search` succeeds exactly
when some alternative occurs as a substring), and the severity. -/
structure DangerRule where
  category : String
  pattern : String
  alts : List String
  severity : String

/-- `DANGEROUS_TOOL_PATTERNS` from patterns/rules.py, in dict insertion
order. -/
def DANGEROUS_TOOL_PATTERNS : List DangerRule :=
  [⟨"shell_exec", "(shell|exec|run|execute|cmd|bash|sh|powershell|eval|system)",
    ["shell", "exec", "run", "execute", "cmd", "bash", "sh", "powershell", "eval", "system"],
    "CRITICAL"⟩,
   ⟨"filesystem",
    "(read_file|write_file|delete|remove|mkdir|listdir|readdir|glob|file_read|file_write)",
    ["read_file", "write_file", "delete", "remove", "mkdir", "listdir", "readdir",
     "glob", "file_read", "file_write"],
    "HIGH"⟩,
   ⟨"network",
    "(fetch|curl|wget|http_get|http_post|request|socket|connect|http_request)",
    ["fetch", "curl", "wget", "http_get", "http_post", "request", "socket",
     "connect", "http_request"],
    "HIGH"⟩,
   ⟨"database", "(sql|query|database|db_exec|mongo|redis|execute_query|db_query)",
    ["sql", "query", "database", "db_exec", "mongo", "redis", "execute_query", "db_query"],
    "HIGH"⟩,
   ⟨"code_eval", "(eval|exec|compile|__import__|subprocess|popen|code_exec)",
    ["eval", "exec", "compile", "__import__", "subprocess", "popen", "code_exec"],
    "CRITICAL"⟩,
   ⟨"secrets_access", "(secret|credential|password|token|key|vault|ssm|aws_secret)",
    ["secret", "credential", "password", "token", "key", "vault", "ssm", "aws_secret"],
    "HIGH"⟩,
   ⟨"cloud_api", "(iam|s3|ec2|gcp|azure|k8s|kubectl|terraform|cloud_exec)",
    ["iam", "s3", "ec2", "gcp", "azure", "k8s", "kubectl", "terraform", "cloud_exec"],
    "HIGH"⟩,
   ⟨"process_mgmt", "(kill|signal|fork|spawn|process|proc_exec)",
    ["kill", "signal", "fork", "spawn", "process", "proc_exec"],
    "MEDIUM"⟩]

/-- Python `.get(k)` on a parsed-JSON value: `AttributeError` when the
value is not a dict. -/
def jsonGetE (j : Json) (k : String) : Except String (Option Json) :=
  match j with
  | .obj kvs => .ok (assocLookup kvs k)
  | _ => .error "AttributeError: get"

/-- Python `.items()` on a parsed-JSON value. -/
def jsonItemsE (j : Json) : Except String (List (String × Json)) :=
  match j with
  | .obj kvs => .ok kvs
  | _ => .error "AttributeError: items"

/-- Python truthiness of a parsed-JSON value. -/
def pyFalsy : Json → Bool
  | .null => true
  | .bool b => !b
  | .num n => decide (n = 0)
  | .str s => s.isEmpty
  | .arr xs => xs.isEmpty
  | .obj kvs => kvs.isEmpty

/-- Python `not d.get(k)`: missing keys and falsy values alike. -/
def pyFalsyOpt (o : Option Json) : Bool :=
  match o with
  | none => true
  | some j => pyFalsy j

/-- Python `str.lower()` (character-wise, kernel-computable). -/
def pyLower (s : String) : String := ⟨s.data.map Char.toLower⟩

/-- Python `... == "object"` on a `.get` result: true only for that exact
string value. -/
def optIsStr (o : Option Json) (s : String) : Bool :=
  match o with
  | some (.str t) => t == s
  | _ => false

/-- `check_excessive_permissions` (checks/permissions.py), body only: scan
each tool's lowercased name+description against the dangerous-capability
pattern table, then inspect its input schema; `tool["name"]` inside the
emitted finding titles raises on a nameless tool. -/
def check_excessive_permissions_core (r : TargetResult) :
    Except String TargetResult :=
  r.tools.foldlM (fun acc tool => do
    let nameL := pyLower (tool.name.getD "")
    let descL := pyLower (tool.description.getD "")
    let combined := nameL ++ " " ++ descL
    let acc ← DANGEROUS_TOOL_PATTERNS.foldlM (fun acc rule => do
      if rule.alts.any (fun alt => strContains combined alt) then
        let nm ← toolNameE tool
        pure (acc.add "excessive_permissions" rule.severity
          ("Dangerous capability [" ++ rule.category ++ "]: " ++ pyq nm)
          ((tool.description.getD "").take 200)
          ("Pattern: " ++ rule.pattern))
      else
        pure acc) acc
    let schema := tool.inputSchema.getD (Json.obj [])
    let tipe ← jsonGetE schema "type"
    if optIsStr tipe "object" then do
      let props ← jsonGetE schema "properties"
      let propsJ := (props).getD (Json.obj [])
      let req ← jsonGetE schema "required"
      let acc ← if pyFalsy propsJ ∧ pyFalsyOpt req then do
          let nm ← toolNameE tool
          pure (acc.add "excessive_permissions" "MEDIUM"
            ("Tool " ++ pyq nm ++ " has no input schema")
            "Accepts arbitrary input with no validation" "")
        else pure acc
      let propsList ← jsonItemsE propsJ
      propsList.foldlM (fun acc pd => do
        let ptype ← jsonGetE pd.2 "type"
        if pyFalsyOpt ptype then do
          let nm ← toolNameE tool
          pure (acc.add "excessive_permissions" "LOW"
            ("Untyped param " ++ pyq pd.1 ++ " in " ++ pyq nm) "" "")
        else pure acc) acc
    else
      pure acc) r

/-- `check_schema_risks` (checks/permissions.py), body only. -/
def check_schema_risks_core (r : TargetResult) : Except String TargetResult :=
  r.tools.foldlM (fun acc tool => do
    let schema := tool.inputSchema.getD (Json.obj [])
    let props ← jsonGetE schema "properties"
    let propsJ := (props).getD (Json.obj [])
    let propsList ← jsonItemsE propsJ
    let nm := tool.name.getD ""
    propsList.foldlM (fun acc pd => do
      let acc := if strContains (pyLower pd.1) "command" then
          acc.add "schema_risk" "CRITICAL"
            ("Command parameter " ++ pyq pd.1 ++ " in tool " ++ pyq nm) "" ""
        else acc
      let ptype ← jsonGetE pd.2 "type"
      let maxLen ← jsonGetE pd.2 "maxLength"
      let acc := if optIsStr ptype "string" ∧ pyFalsyOpt maxLen then
          acc.add "schema_risk" "MEDIUM"
            ("Unbounded string param " ++ pyq pd.1 ++ " in tool " ++ pyq nm)
            "No maxLength constraint — injection surface" ""
        else acc
      let pprops ← jsonGetE pd.2 "properties"
      let acc := if optIsStr ptype "object" ∧ pyFalsyOpt pprops then
          acc.add "schema_risk" "MEDIUM"
            ("Freeform object param " ++ pyq pd.1 ++ " in tool " ++ pyq nm)
            "Accepts arbitrary nested structure" ""
        else acc
      pure acc) acc) r

/-- `check_tool_shadowing` (checks/chaining.py), body only: the lowercased
name set of this target (`t["name"].lower()` raises on a nameless tool) is
intersected with the shadow denylist, then with every other target's name
set. -/
def check_tool_shadowing_core (all_results : List TargetResult)
    (r : TargetResult) : Except String TargetResult := do
  let myNamesList ← r.tools.mapM (fun t => do
    let n ← toolNameE t
    pure (pyLower n))
  let myNames := myNamesList.dedup
  let shadows := myNames.filter (fun n => SHADOW_TARGETS.contains n)
  let r1 := if shadows.isEmpty then r else
    r.add "tool_shadowing" "HIGH"
      ("Tool shadowing: redefines common name(s): " ++ pyListRepr (sortStrings shadows))
      "" ""
  all_results.foldlM (fun acc other =>
    if other.url = r.url then pure acc
    else do
      let otherNames ← other.tools.mapM (fun t => do
        let n ← toolNameE t
        pure (pyLower n))
      let dupes := myNames.filter (fun n => otherNames.contains n)
      if dupes.isEmpty then pure acc
      else pure (acc.add "tool_shadowing" "MEDIUM"
        ("Name collision with " ++ other.url ++ ": " ++ pyListRepr (sortStrings dupes))
        "" "")) r1

/-- `check_multi_vector` (checks/chaining.py), body only. -/
def check_multi_vector_core (r : TargetResult) : TargetResult :=
  let checksHit := (r.findings.map (fun f => f.check)).dedup
  let dangerous := ["prompt_injection", "tool_poisoning", "token_theft",
    "code_execution", "remote_access", "indirect_injection"]
  let hit := checksHit.filter (fun c => dangerous.contains c)
  let r1 := if 2 ≤ hit.length then
      r.add "multi_vector" "CRITICAL"
        ("Multi-vector attack: " ++ toString hit.length ++ " categories active")
        ("Vectors: " ++ pyListRepr (sortStrings hit)) ""
    else r
  if (["prompt_injection", "indirect_injection", "tool_poisoning"].any
        (fun c => checksHit.contains c))
      ∧ (["token_theft", "remote_access"].any (fun c => checksHit.contains c)) then
    r1.add "multi_vector" "CRITICAL"
      "Attack chain: injection + exfiltration vector present" "" ""
  else r1

/-- `check_attack_chains` (checks/chaining.py), body only (the title keeps
the source file's literal arrow bytes). -/
def check_attack_chains_core (r : TargetResult) : TargetResult :=
  let checks := (r.findings.map (fun f => f.check)).dedup
  ATTACK_CHAIN_PATTERNS.foldl (fun acc p =>
    if checks.contains p.1 ∧ checks.contains p.2 then
      acc.add "attack_chain" "CRITICAL"
        ("Attack chain: " ++ p.1 ++ " â†’ " ++ p.2)
        "Two linked vulnerability classes detected in sequence" ""
    else acc) r

/-- `check_protocol_robustness` (checks/behavioral.py), body only: a truthy
reply without an "error" member to the unknown method, or a truthy reply
with a "result" member to the parameterless tools/call, are MEDIUM findings. -/
def check_protocol_robustness_core (s : SessionBehavior) (r : TargetResult) :
    TargetResult :=
  let r1 := match s.unknownMethodResp with
    | some o =>
      if ¬ o.isEmpty ∧ (assocLookup o "error").isNone then
        r.add "protocol_robustness" "MEDIUM"
          "Server returned success for unknown JSON-RPC method"
          "Should return -32601 Method Not Found" ""
      else r
    | none => r
  match s.toolsCallResp with
  | some o =>
    if ¬ o.isEmpty ∧ (assocLookup o "result").isSome then
      r1.add "protocol_robustness" "MEDIUM"
        "Server returned result for tools/call with no params" "" ""
    else r1
  | none => r1

/-- `check_rug_pull` (checks/behavioral.py), body only: issue `tools/list`
twice (with a delay between, immaterial here), return silently if either
reply is falsy (`if not first or not second: return`), then extract both
snapshots via `reply.get("result", dict()).get("tools", [])` — the first
snapshot's extraction evaluated first, raising AttributeError on a
non-object `result` member — and diff them with `rugPullCore`. -/
def check_rug_pull_core (st : CheckState) : CheckState × Option String :=
  let step1 := popToolsList st.2
  let step2 := popToolsList step1.2
  if step1.1.truthy = false ∨ step2.1.truthy = false then ((st.1, step2.2), none)
  else
    match step1.1.getPayload with
    | .error e => ((st.1, step2.2), some e)
    | .ok f =>
      match step2.1.getPayload with
      | .error e => ((st.1, step2.2), some e)
      | .ok sec =>
        match rugPullCore st.1.url f sec with
        | .ok fs => ((({ st.1 with findings := st.1.findings ++ fs }), step2.2), none)
        | .error e => ((st.1, step2.2), some e)

/-! ## Claim C10: robustness of checks against missing tool fields -/

theorem foldlM_ok_of_step_ok {α β : Type} (step : β → α → Except String β)
    (xs : List α) (P : α → Prop) (hP : ∀ x ∈ xs, P x)
    (hstep : ∀ b x, P x → ∃ b2, step b x = Except.ok b2) :
    ∀ b, ∃ out, xs.foldlM step b = Except.ok out := by
  induction xs with
  | nil => exact fun b => ⟨b, rfl⟩
  | cons x rest ih =>
    intro b
    obtain ⟨b2, hb2⟩ := hstep b x (hP x (List.mem_cons_self x rest))
    rw [List.foldlM_cons, hb2]
    show ∃ out, rest.foldlM step b2 = Except.ok out
    exact ih (fun y hy => hP y (List.mem_cons_of_mem x hy)) b2

theorem lowerNames_ok (ts : List Tool) (hn : ∀ t ∈ ts, t.name.isSome) :
    ∃ ns, ts.mapM (fun t => do
      let n ← toolNameE t
      pure (pyLower n)) = Except.ok ns := by
  induction ts with
  | nil => exact ⟨[], rfl⟩
  | cons t rest ih =>
    obtain ⟨nm, hnm⟩ := Option.isSome_iff_exists.mp (hn t (List.mem_cons_self t rest))
    obtain ⟨ns, hns⟩ := ih (fun y hy => hn y (List.mem_cons_of_mem t hy))
    refine ⟨pyLower nm :: ns, ?_⟩
    rw [List.mapM_cons]
    have ht : toolNameE t = Except.ok nm := by simp [toolNameE, hnm]
    rw [ht]
    show (rest.mapM (fun t => do
      let n ← toolNameE t
      pure (pyLower n)) >>= fun bs => pure (pyLower nm :: bs)) = Except.ok (pyLower nm :: ns)
    rw [hns]
    rfl

/-- A tool map may omit `description` and `inputSchema`, but carries a
`name` and, when `inputSchema` is present, an object whose `properties`
(if present) is an object with object values — the shapes the permission
checks read. -/
def schemaWellShaped (j : Json) : Bool :=
  match j with
  | .obj kvs =>
    match assocLookup kvs "properties" with
    | none => true
    | some (.obj ps) => ps.all (fun pd =>
        match pd.2 with
        | .obj _ => true
        | _ => false)
    | some _ => false
  | _ => false

def toolWellFormed (t : Tool) : Bool :=
  t.name.isSome &&
    (match t.inputSchema with
     | none => true
     | some j => schemaWellShaped j)

theorem danger_fold_ok (tool : Tool) (combined : String)
    (hname : tool.name.isSome) (rules : List DangerRule) :
    ∀ acc : TargetResult, ∃ out, rules.foldlM (fun acc rule => do
      if rule.alts.any (fun alt => strContains combined alt) then
        let nm ← toolNameE tool
        pure (acc.add "excessive_permissions" rule.severity
          ("Dangerous capability [" ++ rule.category ++ "]: " ++ pyq nm)
          ((tool.description.getD "").take 200)
          ("Pattern: " ++ rule.pattern))
      else
        pure acc) acc = Except.ok out := by
  obtain ⟨nm, hnm⟩ := Option.isSome_iff_exists.mp hname
  have ht : toolNameE tool = Except.ok nm := by simp [toolNameE, hnm]
  apply foldlM_ok_of_step_ok _ rules (fun _ => True) (fun _ _ => trivial)
  intro b rule _
  by_cases hc : rule.alts.any (fun alt => strContains combined alt)
  · rw [if_pos hc, ht]
    exact ⟨_, rfl⟩
  · rw [if_neg hc]
    exact ⟨b, rfl⟩

theorem props_fold_ok (tool : Tool) (hname : tool.name.isSome)
    (propsList : List (String × Json))
    (hwf : ∀ pd ∈ propsList, ∃ kvs, pd.2 = Json.obj kvs) :
    ∀ acc : TargetResult, ∃ out, propsList.foldlM (fun acc pd => do
      let ptype ← jsonGetE pd.2 "type"
      if pyFalsyOpt ptype then do
        let nm ← toolNameE tool
        pure (acc.add "excessive_permissions" "LOW"
          ("Untyped param " ++ pyq pd.1 ++ " in " ++ pyq nm) "" "")
      else pure acc) acc = Except.ok out := by
  obtain ⟨nm, hnm⟩ := Option.isSome_iff_exists.mp hname
  have ht : toolNameE tool = Except.ok nm := by simp [toolNameE, hnm]
  apply foldlM_ok_of_step_ok _ propsList
    (fun pd => ∃ kvs, pd.2 = Json.obj kvs) hwf
  intro b pd hpd
  obtain ⟨kvs, hkvs⟩ := hpd
  have hget : jsonGetE pd.2 "type" = Except.ok (assocLookup kvs "type") := by
    rw [hkvs]
    rfl
  rw [hget]
  show ∃ out, (if pyFalsyOpt (assocLookup kvs "type") then _ else _) = Except.ok out
  by_cases hc : pyFalsyOpt (assocLookup kvs "type")
  · rw [if_pos hc, ht]
    exact ⟨_, rfl⟩
  · rw [if_neg hc]
    exact ⟨b, rfl⟩

theorem schema_props_shape (kvs : List (String × Json))
    (h : schemaWellShaped (Json.obj kvs) = true) :
    ∃ ps, (assocLookup kvs "properties").getD (Json.obj []) = Json.obj ps
      ∧ ∀ pd ∈ ps, ∃ k2, pd.2 = Json.obj k2 := by
  unfold schemaWellShaped at h
  dsimp only at h
  cases hlp : assocLookup kvs "properties" with
  | none => exact ⟨[], rfl, by simp⟩
  | some pj =>
    rw [hlp] at h
    cases pj with
    | obj ps =>
      refine ⟨ps, rfl, ?_⟩
      intro pd hpd
      have := (List.all_eq_true.mp h) pd hpd
      cases hpd2 : pd.2 with
      | obj k2 => exact ⟨k2, rfl⟩
      | null => rw [hpd2] at this; simp at this
      | bool b => rw [hpd2] at this; simp at this
      | num n => rw [hpd2] at this; simp at this
      | str s => rw [hpd2] at this; simp at this
      | arr xs => rw [hpd2] at this; simp at this
    | null => simp at h
    | bool b => simp at h
    | num n => simp at h
    | str s => simp at h
    | arr xs => simp at h

theorem excessive_ok (r : TargetResult) (h : ∀ t ∈ r.tools, toolWellFormed t) :
    ∃ out, check_excessive_permissions_core r = Except.ok out := by
  unfold check_excessive_permissions_core
  apply foldlM_ok_of_step_ok _ r.tools (fun t => toolWellFormed t = true) h _ r
  intro b tool hwf
  rw [toolWellFormed, Bool.and_eq_true] at hwf
  obtain ⟨hname, hschema⟩ := hwf
  obtain ⟨nm, hnm⟩ := Option.isSome_iff_exists.mp hname
  have htn : toolNameE tool = Except.ok nm := by simp [toolNameE, hnm]
  obtain ⟨acc2, hacc2⟩ := danger_fold_ok tool
    ((pyLower (tool.name.getD "")) ++ " " ++ (pyLower (tool.description.getD "")))
    hname DANGEROUS_TOOL_PATTERNS b
  dsimp only
  rw [hacc2]
  show ∃ out,
    (jsonGetE ((tool.inputSchema).getD (Json.obj [])) "type" >>= fun tipe =>
      if optIsStr tipe "object" then
        (jsonGetE ((tool.inputSchema).getD (Json.obj [])) "properties" >>= fun props => do
          let propsJ := (props).getD (Json.obj [])
          let req ← jsonGetE ((tool.inputSchema).getD (Json.obj [])) "required"
          let acc ← if pyFalsy propsJ ∧ pyFalsyOpt req then do
              let nm ← toolNameE tool
              pure (acc2.add "excessive_permissions" "MEDIUM"
                ("Tool " ++ pyq nm ++ " has no input schema")
                "Accepts arbitrary input with no validation" "")
            else pure acc2
          let propsList ← jsonItemsE propsJ
          propsList.foldlM (fun acc pd => do
            let ptype ← jsonGetE pd.2 "type"
            if pyFalsyOpt ptype then do
              let nm ← toolNameE tool
              pure (acc.add "excessive_permissions" "LOW"
                ("Untyped param " ++ pyq pd.1 ++ " in " ++ pyq nm) "" "")
            else pure acc) acc)
      else
        pure acc2) = Except.ok out
  cases hsch : tool.inputSchema with
  | none =>
    exact ⟨acc2, rfl⟩
  | some j =>
    rw [hsch] at hschema
    dsimp only at hschema
    cases j with
    | obj kvs =>
      show ∃ out,
        (if optIsStr (assocLookup kvs "type") "object" then
          (if pyFalsy ((assocLookup kvs "properties").getD (Json.obj []))
              ∧ pyFalsyOpt (assocLookup kvs "required") then
            (toolNameE tool >>= fun nm =>
              (jsonItemsE ((assocLookup kvs "properties").getD (Json.obj [])) >>=
                fun propsList =>
                propsList.foldlM (fun acc pd => do
                  let ptype ← jsonGetE pd.2 "type"
                  if pyFalsyOpt ptype then do
                    let nm ← toolNameE tool
                    pure (acc.add "excessive_permissions" "LOW"
                      ("Untyped param " ++ pyq pd.1 ++ " in " ++ pyq nm) "" "")
                  else pure acc)
                  (acc2.add "excessive_permissions" "MEDIUM"
                    ("Tool " ++ pyq nm ++ " has no input schema")
                    "Accepts arbitrary input with no validation" "")))
          else
            (jsonItemsE ((assocLookup kvs "properties").getD (Json.obj [])) >>=
              fun propsList =>
              propsList.foldlM (fun acc pd => do
                let ptype ← jsonGetE pd.2 "type"
                if pyFalsyOpt ptype then do
                  let nm ← toolNameE tool
                  pure (acc.add "excessive_permissions" "LOW"
                    ("Untyped param " ++ pyq pd.1 ++ " in " ++ pyq nm) "" "")
                else pure acc) acc2))
        else pure acc2) = Except.ok out
      by_cases hobj : optIsStr (assocLookup kvs "type") "object"
      · rw [if_pos hobj]
        obtain ⟨ps, hps, hall⟩ := schema_props_shape kvs hschema
        by_cases hns : pyFalsy ((assocLookup kvs "properties").getD (Json.obj []))
            ∧ pyFalsyOpt (assocLookup kvs "required")
        · rw [if_pos hns]
          nth_rewrite 1 [htn]
          rw [hps]
          show ∃ out, ps.foldlM (fun acc pd => do
              let ptype ← jsonGetE pd.2 "type"
              if pyFalsyOpt ptype then do
                let nm ← toolNameE tool
                pure (acc.add "excessive_permissions" "LOW"
                  ("Untyped param " ++ pyq pd.1 ++ " in " ++ pyq nm) "" "")
              else pure acc)
            (acc2.add "excessive_permissions" "MEDIUM"
              ("Tool " ++ pyq nm ++ " has no input schema")
              "Accepts arbitrary input with no validation" "") = Except.ok out
          exact props_fold_ok tool hname ps hall _
        · rw [if_neg hns, hps]
          show ∃ out, ps.foldlM (fun acc pd => do
              let ptype ← jsonGetE pd.2 "type"
              if pyFalsyOpt ptype then do
                let nm ← toolNameE tool
                pure (acc.add "excessive_permissions" "LOW"
                  ("Untyped param " ++ pyq pd.1 ++ " in " ++ pyq nm) "" "")
              else pure acc) acc2 = Except.ok out
          exact props_fold_ok tool hname ps hall acc2
      · rw [if_neg hobj]
        exact ⟨acc2, rfl⟩
    | null => simp [schemaWellShaped] at hschema
    | bool bb => simp [schemaWellShaped] at hschema
    | num nn => simp [schemaWellShaped] at hschema
    | str ss => simp [schemaWellShaped] at hschema
    | arr xs => simp [schemaWellShaped] at hschema

theorem schema_risks_ok (r : TargetResult) (h : ∀ t ∈ r.tools, toolWellFormed t) :
    ∃ out, check_schema_risks_core r = Except.ok out := by
  unfold check_schema_risks_core
  apply foldlM_ok_of_step_ok _ r.tools (fun t => toolWellFormed t = true) h _ r
  intro b tool hwf
  rw [toolWellFormed, Bool.and_eq_true] at hwf
  obtain ⟨hname, hschema⟩ := hwf
  cases hsch : tool.inputSchema with
  | none => exact ⟨b, rfl⟩
  | some j =>
    rw [hsch] at hschema
    dsimp only at hschema
    cases j with
    | obj kvs =>
      obtain ⟨ps, hps, hall⟩ := schema_props_shape kvs hschema
      show ∃ out, (jsonItemsE ((assocLookup kvs "properties").getD (Json.obj [])) >>=
        fun propsList =>
        propsList.foldlM (fun acc pd => do
          let acc := if strContains (pyLower pd.1) "command" then
              acc.add "schema_risk" "CRITICAL"
                ("Command parameter " ++ pyq pd.1 ++ " in tool " ++ pyq (tool.name.getD ""))
                "" ""
            else acc
          let ptype ← jsonGetE pd.2 "type"
          let maxLen ← jsonGetE pd.2 "maxLength"
          let acc := if optIsStr ptype "string" ∧ pyFalsyOpt maxLen then
              acc.add "schema_risk" "MEDIUM"
                ("Unbounded string param " ++ pyq pd.1 ++ " in tool " ++ pyq (tool.name.getD ""))
                "No maxLength constraint — injection surface" ""
            else acc
          let pprops ← jsonGetE pd.2 "properties"
          let acc := if optIsStr ptype "object" ∧ pyFalsyOpt pprops then
              acc.add "schema_risk" "MEDIUM"
                ("Freeform object param " ++ pyq pd.1 ++ " in tool " ++ pyq (tool.name.getD ""))
                "Accepts arbitrary nested structure" ""
            else acc
          pure acc) b) = Except.ok out
      rw [hps]
      show ∃ out, ps.foldlM (fun acc pd => do
          let acc := if strContains (pyLower pd.1) "command" then
              acc.add "schema_risk" "CRITICAL"
                ("Command parameter " ++ pyq pd.1 ++ " in tool " ++ pyq (tool.name.getD ""))
                "" ""
            else acc
          let ptype ← jsonGetE pd.2 "type"
          let maxLen ← jsonGetE pd.2 "maxLength"
          let acc := if optIsStr ptype "string" ∧ pyFalsyOpt maxLen then
              acc.add "schema_risk" "MEDIUM"
                ("Unbounded string param " ++ pyq pd.1 ++ " in tool " ++ pyq (tool.name.getD ""))
                "No maxLength constraint — injection surface" ""
            else acc
          let pprops ← jsonGetE pd.2 "properties"
          let acc := if optIsStr ptype "object" ∧ pyFalsyOpt pprops then
              acc.add "schema_risk" "MEDIUM"
                ("Freeform object param " ++ pyq pd.1 ++ " in tool " ++ pyq (tool.name.getD ""))
                "Accepts arbitrary nested structure" ""
            else acc
          pure acc) b = Except.ok out
      apply foldlM_ok_of_step_ok _ ps (fun pd => ∃ k2, pd.2 = Json.obj k2) hall _ b
      intro b2 pd hpd
      obtain ⟨k2, hk2⟩ := hpd
      rw [hk2]
      exact ⟨_, rfl⟩
    | null => simp [schemaWellShaped] at hschema
    | bool bb => simp [schemaWellShaped] at hschema
    | num nn => simp [schemaWellShaped] at hschema
    | str ss => simp [schemaWellShaped] at hschema
    | arr xs => simp [schemaWellShaped] at hschema

theorem tool_shadowing_ok (allRes : List TargetResult) (r : TargetResult)
    (hr : ∀ t ∈ r.tools, t.name.isSome) (hall : allToolsNamed allRes) :
    ∃ out, check_tool_shadowing_core allRes r = Except.ok out := by
  unfold check_tool_shadowing_core
  obtain ⟨ns, hns⟩ := lowerNames_ok r.tools hr
  rw [hns]
  show ∃ out, allRes.foldlM (fun acc other =>
    if other.url = r.url then pure acc
    else do
      let otherNames ← other.tools.mapM (fun t => do
        let n ← toolNameE t
        pure (pyLower n))
      let dupes := ns.dedup.filter (fun n => otherNames.contains n)
      if dupes.isEmpty then pure acc
      else pure (acc.add "tool_shadowing" "MEDIUM"
        ("Name collision with " ++ other.url ++ ": " ++ pyListRepr (sortStrings dupes))
        "" ""))
    (if (ns.dedup.filter (fun n => SHADOW_TARGETS.contains n)).isEmpty then r
     else r.add "tool_shadowing" "HIGH"
       ("Tool shadowing: redefines common name(s): " ++
         pyListRepr (sortStrings (ns.dedup.filter (fun n => SHADOW_TARGETS.contains n))))
       "" "") = Except.ok out
  apply foldlM_ok_of_step_ok _ allRes
    (fun other => ∀ t ∈ other.tools, t.name.isSome) hall
  intro b2 other hother
  by_cases hu : other.url = r.url
  · rw [if_pos hu]
    exact ⟨b2, rfl⟩
  · rw [if_neg hu]
    obtain ⟨ns2, hns2⟩ := lowerNames_ok other.tools hother
    rw [hns2]
    show ∃ out, (if (ns.dedup.filter (fun n => ns2.contains n)).isEmpty then pure b2
      else pure (b2.add "tool_shadowing" "MEDIUM"
        ("Name collision with " ++ other.url ++ ": " ++
          pyListRepr (sortStrings (ns.dedup.filter (fun n => ns2.contains n))))
        "" "")) = Except.ok out
    by_cases hd : (ns.dedup.filter (fun n => ns2.contains n)).isEmpty
    · rw [if_pos hd]
      exact ⟨b2, rfl⟩
    · rw [if_neg hd]
      exact ⟨_, rfl⟩

/-- A tool map with no `name` key, for the C10 counterexample. -/
def c10NamelessTool : Tool := ⟨none, some "execute shell commands", none⟩

/-- A target result holding the nameless tool. -/
def c10Result : TargetResult :=
  ⟨"http://t", "HTTP", Json.obj [], [c10NamelessTool], [], [], [], [], ""⟩

/-- Counterexample to claim C10 as stated: a tool map lacking only `name`
makes detect_cross_shadowing, check_tool_shadowing and
check_excessive_permissions all raise KeyError instead of treating the
field as absent. -/
theorem missing_name_raises :
    detect_cross_shadowing [c10Result] = Except.error "KeyError: name"
    ∧ check_tool_shadowing_core [] c10Result = Except.error "KeyError: name"
    ∧ check_excessive_permissions_core c10Result = Except.error "KeyError: name" :=
  ⟨rfl, rfl, rfl⟩

/-- Claim C10, amended: the checks tolerate missing `description` and
`inputSchema` (treated as absent/empty), but every tool map must carry a
`name` (and present schema values their expected object shapes); under
those conditions detect_cross_shadowing, check_tool_shadowing,
check_excessive_permissions (and check_schema_risks) complete without
raising. -/
theorem checks_tolerate_missing_optional_fields
    (results allRes : List TargetResult) (r : TargetResult)
    (h1 : allToolsNamed results)
    (h2 : ∀ t ∈ r.tools, toolWellFormed t)
    (h3 : allToolsNamed allRes) :
    (∃ out, detect_cross_shadowing results = Except.ok out)
    ∧ (∃ out, check_tool_shadowing_core allRes r = Except.ok out)
    ∧ (∃ out, check_excessive_permissions_core r = Except.ok out)
    ∧ (∃ out, check_schema_risks_core r = Except.ok out) := by
  have hr : ∀ t ∈ r.tools, t.name.isSome := by
    intro t ht
    have hw := h2 t ht
    rw [toolWellFormed, Bool.and_eq_true] at hw
    exact hw.1
  exact ⟨⟨_, detect_cross_shadowing_ok results h1⟩,
    tool_shadowing_ok allRes r hr h3,
    excessive_ok r h2,
    schema_risks_ok r h2⟩

/-- A tool with a name but no description and no inputSchema. -/
def c10GoodTool : Tool := ⟨some "fetch_data", none, none⟩

/-- A target result holding only the minimal named tool. -/
def c10GoodResult : TargetResult :=
  ⟨"http://t", "HTTP", Json.obj [], [c10GoodTool], [], [], [], [], ""⟩

/-- Witness for amended claim C10 at a concrete input: a tool carrying
only `name` passes all the checks without raising. -/
theorem checks_tolerate_missing_optional_fields_witness :
    (allToolsNamed [c10GoodResult]
      ∧ (∀ t ∈ c10GoodResult.tools, toolWellFormed t)
      ∧ allToolsNamed ([] : List TargetResult))
    ∧ ((∃ out, detect_cross_shadowing [c10GoodResult] = Except.ok out)
      ∧ (∃ out, check_tool_shadowing_core [] c10GoodResult = Except.ok out)
      ∧ (∃ out, check_excessive_permissions_core c10GoodResult = Except.ok out)
      ∧ (∃ out, check_schema_risks_core c10GoodResult = Except.ok out)) := by
  refine ⟨⟨by decide, by decide, by decide⟩, ?_⟩
  exact checks_tolerate_missing_optional_fields [c10GoodResult] [] c10GoodResult
    (by decide) (by decide) (by decide)

/-! ## Enumerator (`mcp_attack/core/enumerator.py`) and scan orchestration
(`mcp_attack/scanner.py` scan_target; `run_all_checks` from the absent
checks/__init__.py is modelled from the spec) -/

/-- The `initialize` reply's `"result"` member, when the reply arrived and
is a non-falsy object carrying one (`if not resp or "result" not in resp`). -/
def initResultOf (s : SessionBehavior) : Option Json :=
  s.initResp.bind (fun kvs => assocLookup kvs "result")

/-- One list-branch attempt, `if xr and "result" in xr: ... =
xr["result"].get(key, [])`: `ok none` when the branch guard fails (no or
falsy reply, or no `result` member — the assignment is skipped), `ok
(some payload)` when the `result` member is an object (absent key
defaulting to `[]`), AttributeError when it is a non-object. -/
def listAssignE (rep : ListReply (List α)) : Except String (Option (List α)) :=
  match rep with
  | .objResult p => .ok (some (p.getD []))
  | .scalarResult _ _ => .error "AttributeError: get"
  | _ => .ok none

/-- `tools/list` called up to 3 times, breaking at the first reply carrying
a `result` member — whose extraction can raise — with the 1-second pauses
between attempts immaterial here. -/
def popToolsUpTo3 (s : SessionBehavior) :
    Except String (Option (List Tool)) × SessionBehavior :=
  let a1 := popToolsList s
  match listAssignE a1.1 with
  | .error e => (.error e, a1.2)
  | .ok (some ts) => (.ok (some ts), a1.2)
  | .ok none =>
    let a2 := popToolsList a1.2
    match listAssignE a2.1 with
    | .error e => (.error e, a2.2)
    | .ok (some ts) => (.ok (some ts), a2.2)
    | .ok none =>
      let a3 := popToolsList a2.2
      match listAssignE a3.1 with
      | .error e => (.error e, a3.2)
      | .ok (some ts) => (.ok (some ts), a3.2)
      | .ok none => (.ok none, a3.2)

/-- `enumerate_server`: initialize (retries=3); no/falsy/`result`-less
reply ⇒ one HIGH finding and immediate return; otherwise record
server_info, append the unauthenticated-initialize HIGH finding, send the
`initialized` notification (no observable effect here), list tools (up to
3 attempts) and resources/prompts (once each, best-effort). `.get(...)`
on a non-object `result` member — of the initialize reply or of any of
the three list replies — raises AttributeError, as in the source. -/
def enumerateServer (s : SessionBehavior) (result : TargetResult) (dur : Nat) :
    Except String (TargetResult × SessionBehavior) :=
  match initResultOf s with
  | none =>
    Except.ok
      (((result.add "init" "HIGH" "No response to MCP initialize"
          "Server did not respond to initialize handshake" "") |>
        fun r => { r with timings := dictInsert r.timings "enumerate" dur }), s)
  | some rj => do
    let result := { result with server_info := rj }
    let info ← jsonGetE rj "serverInfo"
    let infoJ := info.getD (Json.obj [])
    let caps ← jsonGetE rj "capabilities"
    let _capsJ := caps.getD (Json.obj [])
    let nameV ← jsonGetE infoJ "name"
    let verV ← jsonGetE infoJ "version"
    let nameD := (nameV.map Json.pyStr).getD "?"
    let verD := (verV.map Json.pyStr).getD "?"
    let result := result.add "auth" "HIGH" "Unauthenticated MCP initialize accepted"
      ("Server " ++ pyq nameD ++ " v" ++ verD ++
        " accepted initialize with no credentials")
      ((Json.dumpsIndent 0 rj).take 500)
    let listed := popToolsUpTo3 s
    let tl ← listed.1
    let result := match tl with
      | some ts => { result with tools := ts }
      | none => result
    let rl ← listAssignE listed.2.resourcesResp
    let result := match rl with
      | some rs => { result with resources := rs }
      | none => result
    let pl ← listAssignE listed.2.promptsResp
    let result := match pl with
      | some ps => { result with prompts := ps }
      | none => result
    pure ({ result with timings := dictInsert result.timings "enumerate" dur },
      listed.2)

/-- Modelled from the spec: the per-check boundary of `run_all_checks`
(checks/__init__.py is absent from src/). Spec sections 4.3 and 7(e): a
throwing check must not abort the target's scan and "silently contributes
zero findings for that invocation"; the timing its `time_check` exit wrote
survives. -/
def catchCheck (chk : CheckState → CheckState × Option String)
    (st : CheckState) : CheckState :=
  let out := chk st
  match out.2 with
  | none => out.1
  | some _ => (({ out.1.1 with findings := st.1.findings } : TargetResult), out.1.2)

/-- Modelled from the spec: `run_all_checks` runs the catalog in a fixed
order, catching each check at its boundary. -/
def runAllChecks (checks : List (CheckState → CheckState × Option String))
    (st : CheckState) : CheckState :=
  checks.foldl (fun st chk => catchCheck chk st) st

/-- Lift a result-only check body into the check framework. -/
def liftResultCheck (f : TargetResult → Except String TargetResult) :
    CheckState → CheckState × Option String :=
  fun st =>
    match f st.1 with
    | .ok r => ((r, st.2), none)
    | .error e => ((st.1, st.2), some e)

/-- Lift a total result-only check body. -/
def liftPureCheck (f : TargetResult → TargetResult) :
    CheckState → CheckState × Option String :=
  fun st => ((f st.1, st.2), none)

/-- `check_protocol_robustness` as a framework check. -/
def check_protocol_robustness_chk : CheckState → CheckState × Option String :=
  fun st => ((check_protocol_robustness_core st.2 st.1, st.2), none)

/-- Modelled from the spec: the check catalog `scan_target` runs
(checks/__init__.py is absent from src/). Per spec section 4.4 the order is
static checks, then behavioral checks, then the correlative checks; per the
enumeration-failure property in section 8, behavioral checks do not run for
a target whose initialize handshake never succeeded (their timing entries
stay absent). The catalog holds the checks embedded in this development;
the purely textual pattern checks consume only tool/resource/prompt text
and append findings only on matches, so no claim depends on them. -/
def specCatalog (allResults : List TargetResult) (dur : Nat)
    (handshakeOk : Bool) : List (CheckState → CheckState × Option String) :=
  [withTimeCheck "excessive_permissions" dur (liftResultCheck check_excessive_permissions_core),
   withTimeCheck "schema_risks" dur (liftResultCheck check_schema_risks_core),
   withTimeCheck "tool_shadowing" dur (liftResultCheck (check_tool_shadowing_core allResults))]
  ++ (if handshakeOk then
      [withTimeCheck "rug_pull" dur check_rug_pull_core,
       withTimeCheck "protocol_robustness" dur check_protocol_robustness_chk]
    else [])
  ++ [withTimeCheck "multi_vector" dur (liftPureCheck check_multi_vector_core),
      withTimeCheck "attack_chains" dur (liftPureCheck check_attack_chains_core)]

/-- `scan_target`, parametric in the catalog: build a fresh TargetResult;
without a session record the HIGH no-transport finding and return (no
close); with a session set the transport label, enumerate (an exception
propagates — close is skipped, as in the source, where `session.close()`
has no try/finally), run the checks, close the session (counted in the
second component) and record the total time. -/
def scanTargetWith (url : String) (sessionOpt : Option SessionBehavior)
    (checks : Bool → List (CheckState → CheckState × Option String))
    (dur : Nat) : Except String TargetResult × Nat :=
  let result := TargetResult.fresh url
  match sessionOpt with
  | none =>
    let r1 := { result with transport := "none" }
    let r2 := r1.add "transport" "HIGH" "No MCP endpoint found"
      "Tried SSE + HTTP POST on common paths" ""
    (Except.ok { r2 with timings := dictInsert r2.timings "total" dur }, 0)
  | some s =>
    let label := if (s.sseUrl.getD "").isEmpty then "HTTP" else "SSE"
    let r1 := { result with transport := label }
    match enumerateServer s r1 dur with
    | .error e => (.error e, 0)
    | .ok out =>
      let handshakeOk := (initResultOf s).isSome
      let st := runAllChecks (checks handshakeOk) out
      (Except.ok { st.1 with timings := dictInsert st.1.timings "total" dur }, 1)

/-- `scan_target` with the spec-modelled catalog. -/
def scanTarget (url : String) (sessionOpt : Option SessionBehavior)
    (allResults : List TargetResult) (dur : Nat) :
    Except String TargetResult × Nat :=
  scanTargetWith url sessionOpt (specCatalog allResults dur) dur

/-- The initialize reply shapes `enumerate_server` handles without
raising: no (or failed) reply, or an object `result` whose `serverInfo`
member, if present, is an object. -/
def goodInitShape (s : SessionBehavior) : Bool :=
  match initResultOf s with
  | none => true
  | some (Json.obj kvs) =>
    (match assocLookup kvs "serverInfo" with
     | none => true
     | some (Json.obj _) => true
     | some _ => false)
  | some _ => false

/-- Whether a list reply's `result` member, when present, is an object —
the only shapes whose extraction does not raise. -/
def replyShapeOk : ListReply α → Bool
  | .scalarResult _ _ => false
  | _ => true

/-- The session shapes `enumerate_server` handles without raising: the
initialize-reply shape of `goodInitShape`, and — when the handshake
succeeded, so the list calls are reached at all — no non-object `result`
member in any `tools/list` reply the 3-attempt loop inspects, nor in the
`resources/list` and `prompts/list` replies. -/
def goodSessionShape (s : SessionBehavior) : Bool :=
  goodInitShape s &&
    (match initResultOf s with
     | none => true
     | some _ =>
       (match (popToolsUpTo3 s).1 with
        | .ok _ => true
        | .error _ => false)
       && replyShapeOk (popToolsUpTo3 s).2.resourcesResp
       && replyShapeOk (popToolsUpTo3 s).2.promptsResp)

theorem enumerateServer_ok (s : SessionBehavior) (r : TargetResult) (dur : Nat)
    (h : goodSessionShape s = true) :
    ∃ out, enumerateServer s r dur = Except.ok out := by
  unfold goodSessionShape at h
  rw [Bool.and_eq_true] at h
  obtain ⟨hinit, hrest⟩ := h
  unfold enumerateServer
  unfold goodInitShape at hinit
  cases hres : initResultOf s with
  | none =>
    exact ⟨_, rfl⟩
  | some rj =>
    rw [hres] at hinit hrest
    dsimp only at hrest
    rw [Bool.and_eq_true, Bool.and_eq_true] at hrest
    obtain ⟨⟨htl, hrl⟩, hpl⟩ := hrest
    cases hl : popToolsUpTo3 s with
    | mk e1 s2 =>
      rw [hl] at htl hrl hpl
      dsimp only at htl hrl hpl
      cases e1 with
      | error e => simp at htl
      | ok tl =>
        have hv1 : ∃ v, listAssignE s2.resourcesResp = Except.ok v := by
          cases hr2 : s2.resourcesResp with
          | noReply => exact ⟨_, rfl⟩
          | noResult => exact ⟨_, rfl⟩
          | objResult p => exact ⟨_, rfl⟩
          | scalarResult j hj =>
            rw [hr2] at hrl
            simp [replyShapeOk] at hrl
        have hv2 : ∃ v, listAssignE s2.promptsResp = Except.ok v := by
          cases hp2 : s2.promptsResp with
          | noReply => exact ⟨_, rfl⟩
          | noResult => exact ⟨_, rfl⟩
          | objResult p => exact ⟨_, rfl⟩
          | scalarResult j hj =>
            rw [hp2] at hpl
            simp [replyShapeOk] at hpl
        obtain ⟨v1, hv1⟩ := hv1
        obtain ⟨v2, hv2⟩ := hv2
        cases rj with
        | obj kvs =>
          dsimp only at hinit ⊢
          cases hsi : assocLookup kvs "serverInfo" with
          | none =>
            have heq : jsonGetE (Json.obj kvs) "serverInfo" =
                Except.ok (none : Option Json) := by
              simp [jsonGetE, hsi]
            rw [heq]
            rw [hv1, hv2]
            exact ⟨_, rfl⟩
          | some si =>
            rw [hsi] at hinit
            cases si with
            | obj k2 =>
              have heq : jsonGetE (Json.obj kvs) "serverInfo" =
                  Except.ok (some (Json.obj k2)) := by
                simp [jsonGetE, hsi]
              rw [heq]
              rw [hv1, hv2]
              exact ⟨_, rfl⟩
            | null => simp at hinit
            | bool b => simp at hinit
            | num n => simp at hinit
            | str t => simp at hinit
            | arr xs => simp at hinit
        | null => simp at hinit
        | bool b => simp at hinit
        | num n => simp at hinit
        | str t => simp at hinit
        | arr xs => simp at hinit

/-- Claim C2, amended: with a session present, `session.close()` runs
exactly once on the success, enumeration-failure and check-exception paths
— for an arbitrary check catalog, raising or not — provided every reply
`enumerate_server` parses is well-shaped (`result` members that are
present are objects, in the initialize reply, in the `tools/list` replies
its 3-attempt loop inspects, and in the `resources/list` and
`prompts/list` replies); any reply whose `result` member is a non-object
raises AttributeError inside `enumerate_server` before the close call,
which has no try/finally protecting it, and close is skipped. -/
theorem session_closed_once (url : String) (s : SessionBehavior)
    (checks : Bool → List (CheckState → CheckState × Option String))
    (allResults : List TargetResult) (dur : Nat)
    (h : goodSessionShape s = true) :
    (scanTargetWith url (some s) checks dur).2 = 1
    ∧ (∃ r, (scanTargetWith url (some s) checks dur).1 = Except.ok r)
    ∧ (scanTarget url (some s) allResults dur).2 = 1 := by
  obtain ⟨out, hout⟩ := enumerateServer_ok s
    { TargetResult.fresh url with
        transport := if (s.sseUrl.getD "").isEmpty then "HTTP" else "SSE" } dur h
  dsimp only at hout
  refine ⟨?_, ?_, ?_⟩
  · unfold scanTargetWith
    dsimp only
    rw [hout]
  · unfold scanTargetWith
    dsimp only
    rw [hout]
    exact ⟨_, rfl⟩
  · unfold scanTarget scanTargetWith
    dsimp only
    rw [hout]

/-- Session for the C2 counterexample, initialize path: a parsable
initialize reply whose `result` member is the number 5 rather than an
object. -/
def badSession : SessionBehavior :=
  ⟨some [("result", Json.num 5)], [], .noReply, .noReply, none, none, none, ""⟩

/-- Session for the C2 counterexample, list-call path: a well-shaped
initialize reply (its `result` an empty object), followed by a
`tools/list` reply whose `result` member is the number 5. -/
def badToolsSession : SessionBehavior :=
  ⟨some [("result", Json.obj [])],
   [ListReply.scalarResult (Json.num 5) rfl], .noReply, .noReply,
   none, none, none, ""⟩

/-- Counterexample to claim C2 as stated: detect_transport returned a
session, yet the scan ends with the close count at 0, because
`enumerate_server` raises AttributeError before the `session.close()`
call, which sits after the checks with no try/finally. Two distinct
close-skipping paths: a non-object initialize `result`
(`r.get("serverInfo", dict())` raises), and — with a perfectly well-shaped
initialize reply — a non-object `tools/list` `result`
(`tr["result"].get("tools", [])` raises). -/
theorem session_close_skipped :
    ((scanTarget "http://x" (some badSession) [] 0).2 = 0
      ∧ (scanTarget "http://x" (some badSession) [] 0).2 ≠ 1
      ∧ (∃ e, (scanTarget "http://x" (some badSession) [] 0).1 = Except.error e))
    ∧ (goodInitShape badToolsSession = true
      ∧ (scanTarget "http://x2" (some badToolsSession) [] 0).2 = 0
      ∧ (scanTarget "http://x2" (some badToolsSession) [] 0).2 ≠ 1
      ∧ (∃ e, (scanTarget "http://x2" (some badToolsSession) [] 0).1 =
          Except.error e)) :=
  ⟨⟨rfl, by decide, ⟨"AttributeError: get", rfl⟩⟩,
   ⟨by decide, rfl, by decide, ⟨"AttributeError: get", rfl⟩⟩⟩

/-- Session for the C2 witness: a well-shaped initialize reply and
well-shaped list replies — `tools/list` succeeding on the second attempt,
`resources/list` carrying an object result without a `resources` member,
`prompts/list` answered without a `result` member. -/
def fullSession : SessionBehavior :=
  ⟨some [("result", Json.obj [("serverInfo",
      Json.obj [("name", Json.str "srv"), ("version", Json.str "1")])])],
   [ListReply.noResult, ListReply.objResult (some [⟨some "alpha", none, none⟩])],
   ListReply.objResult none, ListReply.noResult, none, none, none, ""⟩

/-- Witness for amended claim C2 at concrete inputs: a session answering
the whole enumeration with well-shaped replies has its close called
exactly once, as does a quiet session whose initialize goes unanswered. -/
theorem session_closed_once_witness :
    (goodSessionShape fullSession = true
      ∧ (scanTargetWith "http://t" (some fullSession) (fun _ => []) 0).2 = 1
      ∧ (∃ r, (scanTargetWith "http://t" (some fullSession) (fun _ => []) 0).1
          = Except.ok r)
      ∧ (scanTarget "http://t" (some fullSession) [] 0).2 = 1)
    ∧ (goodSessionShape quietSession = true
      ∧ (scanTarget "http://t2" (some quietSession) [] 0).2 = 1) := by
  have h := session_closed_once "http://t" fullSession (fun _ => []) [] 0 (by decide)
  have h2 := session_closed_once "http://t2" quietSession (fun _ => []) [] 0 (by decide)
  exact ⟨⟨by decide, h.1, h.2.1, h.2.2⟩, ⟨by decide, h2.2.2⟩⟩

theorem shadow_fold_const (r : TargetResult) (myNames : List String)
    (hmy : myNames = []) (rs : List TargetResult) :
    ∀ acc : TargetResult,
      (rs.foldlM (fun acc other =>
        if other.url = r.url then pure acc
        else do
          let otherNames ← other.tools.mapM (fun t => do
            let n ← toolNameE t
            pure (pyLower n))
          let dupes := myNames.filter (fun n => otherNames.contains n)
          if dupes.isEmpty then pure acc
          else pure (acc.add "tool_shadowing" "MEDIUM"
            ("Name collision with " ++ other.url ++ ": " ++
              pyListRepr (sortStrings dupes)) "" "")) acc = Except.ok acc)
      ∨ (∃ e, rs.foldlM (fun acc other =>
        if other.url = r.url then pure acc
        else do
          let otherNames ← other.tools.mapM (fun t => do
            let n ← toolNameE t
            pure (pyLower n))
          let dupes := myNames.filter (fun n => otherNames.contains n)
          if dupes.isEmpty then pure acc
          else pure (acc.add "tool_shadowing" "MEDIUM"
            ("Name collision with " ++ other.url ++ ": " ++
              pyListRepr (sortStrings dupes)) "" "")) acc = Except.error e) := by
  subst hmy
  induction rs with
  | nil => exact fun acc => Or.inl rfl
  | cons other rest ih =>
    intro acc
    rw [List.foldlM_cons]
    by_cases hu : other.url = r.url
    · rw [if_pos hu]
      exact ih acc
    · rw [if_neg hu]
      cases heq : other.tools.mapM (fun t => do
        let n ← toolNameE t
        pure (pyLower n)) with
      | error e =>
        right
        exact ⟨e, rfl⟩
      | ok ns2 =>
        exact ih acc

theorem tool_shadowing_core_empty (allResults : List TargetResult)
    (r : TargetResult) (hr : r.tools = []) :
    check_tool_shadowing_core allResults r = Except.ok r
    ∨ ∃ e, check_tool_shadowing_core allResults r = Except.error e := by
  unfold check_tool_shadowing_core
  rw [hr]
  exact shadow_fold_const r (List.dedup ([] : List String)) rfl allResults r

theorem catch_tool_shadowing_empty (allResults : List TargetResult)
    (r : TargetResult) (s' : SessionBehavior) (dur : Nat) (hr : r.tools = []) :
    catchCheck (withTimeCheck "tool_shadowing" dur
      (liftResultCheck (check_tool_shadowing_core allResults))) (r, s') =
    (({ r with timings := dictInsert r.timings "tool_shadowing" dur } : TargetResult),
      s') := by
  rcases tool_shadowing_core_empty allResults r hr with h | ⟨e, h⟩
  · simp [catchCheck, withTimeCheck, liftResultCheck, h]
  · simp [catchCheck, withTimeCheck, liftResultCheck, h]

/-- Claim C1: a target that never answers initialize gets exactly one HIGH
"No response to MCP initialize" finding, keeps tools/resources/prompts
empty, the scan still closes the session and completes, and no behavioral
check ran: neither "rug_pull" nor "protocol_robustness" has a timing entry. -/
theorem enumerate_failure_path (url : String) (s : SessionBehavior)
    (allResults : List TargetResult) (dur : Nat)
    (hinit : s.initResp = none) :
    ∃ r, scanTarget url (some s) allResults dur = (Except.ok r, 1)
    ∧ r.tools = [] ∧ r.resources = [] ∧ r.prompts = []
    ∧ r.findings = [⟨url, "init", "HIGH", "No response to MCP initialize",
        "Server did not respond to initialize handshake", ""⟩]
    ∧ assocLookup r.timings "rug_pull" = none
    ∧ assocLookup r.timings "protocol_robustness" = none := by
  have hres : initResultOf s = none := by simp [initResultOf, hinit]
  refine ⟨⟨url, if (s.sseUrl.getD "").isEmpty then "HTTP" else "SSE",
    Json.obj [], [], [], [],
    [⟨url, "init", "HIGH", "No response to MCP initialize",
      "Server did not respond to initialize handshake", ""⟩],
    [("enumerate", dur), ("excessive_permissions", dur), ("schema_risks", dur),
     ("tool_shadowing", dur), ("multi_vector", dur), ("attack_chains", dur),
     ("total", dur)], ""⟩, ?_, rfl, rfl, rfl, rfl, rfl, rfl⟩
  have henum : enumerateServer s
      ({ TargetResult.fresh url with
          transport := if (s.sseUrl.getD "").isEmpty then "HTTP" else "SSE" }) dur =
      Except.ok ((⟨url, if (s.sseUrl.getD "").isEmpty then "HTTP" else "SSE",
        Json.obj [], [], [], [],
        [⟨url, "init", "HIGH", "No response to MCP initialize",
          "Server did not respond to initialize handshake", ""⟩],
        [("enumerate", dur)], ""⟩ : TargetResult), s) := by
    unfold enumerateServer
    rw [hres]
    rfl
  have hchain : runAllChecks (specCatalog allResults dur false)
      ((⟨url, if (s.sseUrl.getD "").isEmpty then "HTTP" else "SSE",
        Json.obj [], [], [], [],
        [⟨url, "init", "HIGH", "No response to MCP initialize",
          "Server did not respond to initialize handshake", ""⟩],
        [("enumerate", dur)], ""⟩ : TargetResult), s) =
      ((⟨url, if (s.sseUrl.getD "").isEmpty then "HTTP" else "SSE",
        Json.obj [], [], [], [],
        [⟨url, "init", "HIGH", "No response to MCP initialize",
          "Server did not respond to initialize handshake", ""⟩],
        [("enumerate", dur), ("excessive_permissions", dur), ("schema_risks", dur),
         ("tool_shadowing", dur), ("multi_vector", dur), ("attack_chains", dur)],
        ""⟩ : TargetResult), s) := by
    show catchCheck (withTimeCheck "attack_chains" dur (liftPureCheck check_attack_chains_core))
      (catchCheck (withTimeCheck "multi_vector" dur (liftPureCheck check_multi_vector_core))
        (catchCheck (withTimeCheck "tool_shadowing" dur
          (liftResultCheck (check_tool_shadowing_core allResults)))
          ((⟨url, if (s.sseUrl.getD "").isEmpty then "HTTP" else "SSE",
            Json.obj [], [], [], [],
            [⟨url, "init", "HIGH", "No response to MCP initialize",
              "Server did not respond to initialize handshake", ""⟩],
            [("enumerate", dur), ("excessive_permissions", dur), ("schema_risks", dur)],
            ""⟩ : TargetResult), s))) = _
    rw [catch_tool_shadowing_empty allResults _ s dur rfl]
    rfl
  unfold scanTarget scanTargetWith
  dsimp only
  rw [henum]
  dsimp only
  simp only [hres, Option.isSome_none]
  rw [hchain]
  rfl

/-- Witness for claim C1 at a concrete input: a quiet session that never
answers initialize. -/
theorem enumerate_failure_path_witness :
    quietSession.initResp = none
    ∧ (∃ r, scanTarget "http://t" (some quietSession) [] 0 = (Except.ok r, 1)
        ∧ r.tools = [] ∧ r.resources = [] ∧ r.prompts = []
        ∧ r.findings = [⟨"http://t", "init", "HIGH", "No response to MCP initialize",
            "Server did not respond to initialize handshake", ""⟩]
        ∧ assocLookup r.timings "rug_pull" = none
        ∧ assocLookup r.timings "protocol_robustness" = none) :=
  ⟨rfl, enumerate_failure_path "http://t" quietSession [] 0 rfl⟩
